import Mathlib

/-!
Verification of the publication reconciliation pipeline of the
rubin-lab-website repository.

The embedding models, over `List Char` / `String`:
  * the JavaScript regular-expression scans used by `parseCommand` and
    `parseIssueBody` (approve-publication script) as deterministic
    leftmost-match scanners,
  * the issue-body template of `generateIssueBody`
    (scripts/fetch-publications.js),
  * JavaScript truthiness of nullable string fields via `Option String`,
  * the single-pass seen-set deduplication and the
    `publicationExists` / `findNew` reconciliation filter,
  * the decision-apply step of the approve-publication script.
-/

/-! ## Character classes (JavaScript regex semantics) -/

/-- JavaScript `\s` (WhiteSpace ∪ LineTerminator), by code point. -/
def jsWS (c : Char) : Bool :=
  let n := c.toNat
  n = 32 || n = 9 || n = 10 || n = 11 || n = 12 || n = 13 ||
  n = 160 || n = 5760 || (8192 ≤ n && n ≤ 8202) || n = 8232 ||
  n = 8233 || n = 8239 || n = 8287 || n = 12288 || n = 65279

/-- JavaScript LineTerminator characters (what `.` does not match). -/
def lineTerm (c : Char) : Bool :=
  let n := c.toNat
  n = 10 || n = 13 || n = 8232 || n = 8233

/-- JavaScript `\d`. -/
def jsDigit (c : Char) : Bool :=
  48 ≤ c.toNat && c.toNat ≤ 57

/-- Case-insensitive character comparison, as used by the `/i` regex flag
(ASCII folding, which covers the ASCII patterns of the scripts). -/
def charCI (p c : Char) : Bool :=
  p = c || p.toLower = c.toLower

/-! ## Literal matching and leftmost scanning -/

/-- Match a literal pattern (case-sensitively) at the head of the input,
returning the rest of the input. -/
def dropLitCS : List Char → List Char → Option (List Char)
  | [], s => some s
  | _ :: _, [] => none
  | p :: ps, c :: cs => if p = c then dropLitCS ps cs else none

/-- Match a literal pattern case-insensitively at the head of the input,
returning the raw matched characters and the rest of the input. -/
def dropLitCI : List Char → List Char → Option (List Char × List Char)
  | [], s => some ([], s)
  | _ :: _, [] => none
  | p :: ps, c :: cs =>
    if charCI p c then
      match dropLitCI ps cs with
      | some (m, r) => some (c :: m, r)
      | none => none
    else none

/-- Leftmost-match scan: try the matcher at every position, left to right,
exactly as a JavaScript regex search does. -/
def scan1 {α : Type} (m : List Char → Option α) : List Char → Option α
  | [] => m []
  | c :: cs =>
    match m (c :: cs) with
    | some v => some v
    | none => scan1 m cs

/-! ## JavaScript value helpers -/

/-- JS truthiness of a nullable string (`null`/`undefined` and `""` are
falsy). -/
def truthy : Option String → Bool
  | none => false
  | some s => !(s == "")

/-- JS `a || b` on a nullable string with a string default. -/
def jsOrS : Option String → String → String
  | none, d => d
  | some s, d => if s == "" then d else s

/-- JS template-literal interpolation of a nullable string
(`null` renders as the string "null"). -/
def jsStr : Option String → String
  | none => "null"
  | some s => s

/-- JS `String.prototype.trim` on a character list. -/
def jsTrimL (cs : List Char) : List Char :=
  ((cs.dropWhile jsWS).reverse.dropWhile jsWS).reverse

/-! ## Decimal rendering/parsing of numbers -/

/-- Decimal digits of a natural number (most significant first), with
structural fuel so that kernel evaluation reduces. -/
def decReprAux : Nat → Nat → List Char
  | 0, _ => []
  | fuel + 1, n =>
    if n < 10 then [Char.ofNat (48 + n)]
    else decReprAux fuel (n / 10) ++ [Char.ofNat (48 + n % 10)]

/-- Decimal rendering of a natural number, as JS number-to-string. -/
def decRepr (n : Nat) : String :=
  String.mk (decReprAux (n + 1) n)

/-- JS rendering of an integer (`${n}`). -/
def intRepr (i : Int) : String :=
  if i < 0 then "-" ++ decRepr i.natAbs else decRepr i.toNat

/-- Value of a run of decimal digits, as JS `parseInt` computes it on the
string captured by `(\d+)`. -/
def parseDec (cs : List Char) : Nat :=
  cs.foldl (fun a c => a * 10 + (c.toNat - 48)) 0

/-! ## Data model -/

/-- A record produced by a fetch cycle (scripts/fetch-publications.js).
`authors` is absent (`undefined`) on ORCID records; `year`, `doi`, `pmid`
may be `null`. -/
structure PublicationRecord where
  title : String
  authors : Option String
  year : Option Int
  journal : String
  doi : Option String
  pmid : Option String
  source : String
deriving DecidableEq

/-- The `links` object of a persisted publication; only the `paper` key is
ever written by the pipeline. -/
structure PubLinks where
  paper : Option String
deriving DecidableEq

/-- A persisted curated publication (entries of `approved` / `pending` /
`rejected` in publications.json). -/
structure CuratedPublication where
  id : String
  title : String
  authors : String
  journal : String
  year : Option Int
  doi : Option String
  pmid : Option String
  links : PubLinks
deriving DecidableEq

/-- The persisted dataset (publications.json); `lastUpdated` is refreshed
on save and not needed by the verified properties. -/
structure Dataset where
  approved : List CuratedPublication
  pending : List CuratedPublication
  rejected : List CuratedPublication
deriving DecidableEq

/-- The decision parsed from an issue comment by `parseCommand`.
Fields are the raw strings the script stores. -/
structure Decision where
  action : String
  idType : String
  idValue : String
deriving DecidableEq

/-- The partial publication record re-extracted from an issue body by
`parseIssueBody`. -/
structure ParsedDetails where
  title : String
  authors : String
  journal : String
  year : Option Int
  doi : Option String
  pmid : Option String
deriving DecidableEq

/-! ## parseCommand (approve-publication script, lines 15-36)

`comment.match(/\/approve\s+(doi:|pmid:)(\S+)/i)` and the `/reject`
variant: leftmost occurrence of the command word (case-insensitive),
one or more whitespace characters, `doi:` or `pmid:` (case-insensitive),
then a maximal nonempty run of non-whitespace characters. -/

/-- Attempt the command regex at the current position: command word,
`\s+`, `(doi:|pmid:)`, `(\S+)`. Returns (raw matched tag, token). -/
def matchCmdAt (cmd : List Char) (s : List Char) : Option (List Char × List Char) :=
  match dropLitCI cmd s with
  | none => none
  | some (_, r) =>
    if (r.takeWhile jsWS).isEmpty then none
    else
      match dropLitCI "doi:".data (r.dropWhile jsWS) with
      | some (tag, r3) =>
        if (r3.takeWhile (fun c => !(jsWS c))).isEmpty then none
        else some (tag, r3.takeWhile (fun c => !(jsWS c)))
      | none =>
        match dropLitCI "pmid:".data (r.dropWhile jsWS) with
        | some (tag, r3) =>
          if (r3.takeWhile (fun c => !(jsWS c))).isEmpty then none
          else some (tag, r3.takeWhile (fun c => !(jsWS c)))
        | none => none

/-- Leftmost match of the command regex for a given command word. -/
def findCmd (cmd : List Char) (s : List Char) : Option (List Char × List Char) :=
  scan1 (matchCmdAt cmd) s

/-- JS `String.prototype.replace(':', '')`: remove the first colon. -/
def rmColon : List Char → List Char
  | [] => []
  | c :: cs => if c = ':' then cs else c :: rmColon cs

/-- `parseCommand` of the approve-publication script: the `/approve` regex
is tried first, then the `/reject` regex. -/
def parseCommand (comment : String) : Option Decision :=
  match findCmd "/approve".data comment.data with
  | some (tag, tok) => some ⟨"approve", String.mk (rmColon tag), String.mk tok⟩
  | none =>
    match findCmd "/reject".data comment.data with
    | some (tag, tok) => some ⟨"reject", String.mk (rmColon tag), String.mk tok⟩
    | none => none

/-! ## parseIssueBody (approve-publication script, lines 41-57) -/

/-- Attempt `LABEL\s*(.+)` at the current position (greedy `\s*` with
backtracking: if only whitespace remains after the label, the last
non-line-terminator whitespace character is given back to `(.+)`). -/
def matchDotAt (lbl : List Char) (s : List Char) : Option (List Char) :=
  match dropLitCS lbl s with
  | none => none
  | some r =>
    match r.dropWhile jsWS with
    | c :: cs => some ((c :: cs).takeWhile (fun x => !(lineTerm x)))
    | [] =>
      match (r.takeWhile jsWS).foldl
          (fun a c => if lineTerm c then a else some c) none with
      | some c => some [c]
      | none => none

/-- Attempt `LABEL\s*(\d+)` at the current position. -/
def matchDigitsAt (lbl : List Char) (s : List Char) : Option (List Char) :=
  match dropLitCS lbl s with
  | none => none
  | some r =>
    let ds := (r.dropWhile jsWS).takeWhile jsDigit
    if ds.isEmpty then none else some ds

/-- Attempt `LABEL\s*(\S+)` at the current position. -/
def matchTokAt (lbl : List Char) (s : List Char) : Option (List Char) :=
  match dropLitCS lbl s with
  | none => none
  | some r =>
    let tok := (r.dropWhile jsWS).takeWhile (fun c => !(jsWS c))
    if tok.isEmpty then none else some tok

/-- The title label. -/
def lblT : List Char := "**Title:**".data

/-- The authors label. -/
def lblA : List Char := "**Authors:**".data

/-- The journal label. -/
def lblJ : List Char := "**Journal:**".data

/-- The year label. -/
def lblY : List Char := "**Year:**".data

/-- The DOI label. -/
def lblD : List Char := "**DOI:**".data

/-- The PMID label. -/
def lblP : List Char := "**PMID:**".data

/-- `parseIssueBody` of the approve-publication script. -/
def parseIssueBody (body : String) : ParsedDetails :=
  { title :=
      match scan1 (matchDotAt lblT) body.data with
      | some c => String.mk (jsTrimL c)
      | none => ""
    authors :=
      match scan1 (matchDotAt lblA) body.data with
      | some c => String.mk (jsTrimL c)
      | none => ""
    journal :=
      match scan1 (matchDotAt lblJ) body.data with
      | some c => String.mk (jsTrimL c)
      | none => ""
    year := (scan1 (matchDigitsAt lblY) body.data).map
      (fun ds => (parseDec ds : Int))
    doi := (scan1 (matchTokAt lblD) body.data).map
      (fun t => String.mk (jsTrimL t))
    pmid := (scan1 (matchTokAt lblP) body.data).map
      (fun t => String.mk (jsTrimL t)) }

/-! ## generateIssueBody (scripts/fetch-publications.js, lines 190-224) -/

/-- `${pub.year || 'N/A'}`. -/
def yearText : Option Int → String
  | none => "N/A"
  | some n => if n = 0 then "N/A" else intRepr n

/-- The DOI line: present only when `pub.doi` is truthy. -/
def doiLine (pub : PublicationRecord) : String :=
  if truthy pub.doi then "**DOI:** " ++ jsStr pub.doi else ""

/-- The PMID line: present only when `pub.pmid` is truthy. -/
def pmidLine (pub : PublicationRecord) : String :=
  if truthy pub.pmid then "**PMID:** " ++ jsStr pub.pmid else ""

/-- The identifier reference interpolated into the approve/reject command
templates: `pub.doi ? doi:${pub.doi} : pmid:${pub.pmid}`. -/
def cmdRef (pub : PublicationRecord) : String :=
  if truthy pub.doi then "doi:" ++ jsStr pub.doi
  else "pmid:" ++ jsStr pub.pmid

/-- The raw template literal of `generateIssueBody`, before `.trim()`. -/
def rawIssueBody (pub : PublicationRecord) : String :=
  "\n## New Publication Detected\n\n**Title:** " ++ pub.title ++
  "\n\n**Authors:** " ++ jsOrS pub.authors "N/A" ++
  "\n\n**Journal:** " ++ (if pub.journal == "" then "N/A" else pub.journal) ++
  "\n\n**Year:** " ++ yearText pub.year ++
  "\n\n" ++ doiLine pub ++ "\n" ++ pmidLine pub ++
  "\n\n**Source:** " ++ pub.source ++
  "\n\n---\n\n### Actions\n\nTo approve this publication and add it to the website, comment:\n```\n/approve " ++
  cmdRef pub ++
  "\n```\n\nTo reject this publication (won't be asked again), comment:\n```\n/reject " ++
  cmdRef pub ++ "\n```\n"

/-- `generateIssueBody` of scripts/fetch-publications.js. -/
def generateIssueBody (pub : PublicationRecord) : String :=
  String.mk (jsTrimL (rawIssueBody pub).data)

/-! ## Identity matcher and reconciliation (fetch-publications.js) -/

/-- `normalizeTitle`: lowercase, strip every character outside `[a-z0-9]`,
trim. -/
def normalizeTitle (s : String) : String :=
  String.mk (jsTrimL ((s.data.map Char.toLower).filter
    (fun c => (97 ≤ c.toNat && c.toNat ≤ 122) || (48 ≤ c.toNat && c.toNat ≤ 57))))

/-- The per-pair identity test in the loop body of `publicationExists`:
DOI match, PMID match, or normalized-title match. -/
def matchesOne (pub : PublicationRecord) (e : CuratedPublication) : Bool :=
  (truthy pub.doi && truthy e.doi && pub.doi == e.doi) ||
  (truthy pub.pmid && truthy e.pmid && pub.pmid == e.pmid) ||
  (normalizeTitle pub.title == normalizeTitle e.title)

/-- `publicationExists`: the candidate is checked against the union of the
three dataset sequences. -/
def publicationExists (pub : PublicationRecord) (d : Dataset) : Bool :=
  (d.approved ++ d.pending ++ d.rejected).any (matchesOne pub)

/-- The reconciliation filter of `main`
(`uniquePubs.filter(pub => !publicationExists(pub, existingData))`). -/
def findNew (pubs : List PublicationRecord) (d : Dataset) : List PublicationRecord :=
  pubs.filter (fun p => !(publicationExists p d))

/-- The seen-set key of the aggregator deduplication:
`pub.doi || pub.pmid || normalizeTitle(pub.title)`. -/
def dedupKey (p : PublicationRecord) : String :=
  jsOrS p.doi (jsOrS p.pmid (normalizeTitle p.title))

/-- The single-pass deduplication loop of `main`, with the seen set as a
list of keys. -/
def dedupGo : List String → List PublicationRecord → List PublicationRecord
  | _, [] => []
  | seen, p :: rest =>
    if seen.contains (dedupKey p) then dedupGo seen rest
    else p :: dedupGo (dedupKey p :: seen) rest

/-- `main`'s deduplication of the combined fetch list. -/
def dedupPubs (l : List PublicationRecord) : List PublicationRecord :=
  dedupGo [] l

/-! ## Decision application (approve-publication script, lines 105-145) -/

/-- The publication entry built by `main` from the re-parsed issue body
(`id` abstracts the `generateId` output, which uses `Math.random`). -/
def buildPublication (pd : ParsedDetails) (id : String) : CuratedPublication :=
  { id := id
    title := pd.title
    authors := pd.authors
    journal := pd.journal
    year := pd.year
    doi := pd.doi
    pmid := pd.pmid
    links :=
      { paper :=
          if truthy pd.doi then some ("https://doi.org/" ++ jsStr pd.doi)
          else none } }

/-- The mutation `main` performs on the dataset for a parsed command. -/
def applyStep (data : Dataset) (cmd : Decision) (pd : ParsedDetails)
    (id : String) : Dataset :=
  if cmd.action = "approve" then
    { data with approved := data.approved ++ [buildPublication pd id] }
  else if cmd.action = "reject" then
    { data with rejected := data.rejected ++ [buildPublication pd id] }
  else data

/-- Outcome of one decision-apply cycle: abort on empty comment, silent
no-op when no command parses, or a write of the updated dataset. -/
inductive CycleResult where
  | exitNoComment : CycleResult
  | noCommand : CycleResult
  | wrote : Dataset → CycleResult
deriving DecidableEq

/-- The control flow of `main` in the approve-publication script: empty
comment aborts, an unrecognized comment exits before the dataset file is
read, otherwise the mutated dataset is saved. -/
def decisionCycle (comment body : String) (data : Dataset) (id : String) :
    CycleResult :=
  if comment = "" then .exitNoComment
  else
    match parseCommand comment with
    | none => .noCommand
    | some cmd => .wrote (applyStep data cmd (parseIssueBody body) id)

/-! ## Auxiliary predicates and concrete witness records -/

/-- A literal pattern is "stuck" on an input when matching hits a character
mismatch inside the input, so that no continuation can make it match. -/
def stuck : List Char → List Char → Bool
  | [], _ => false
  | _ :: _, [] => false
  | p :: ps, c :: cs => if p = c then stuck ps cs else true

/-- Every nonempty suffix of `a` is stuck for `pat`: scanning for `pat`
can skip the whole block `a`. -/
def SkipOk (pat a : List Char) : Prop :=
  ∀ s, s <:+ a → s ≠ [] → stuck pat s = true

/-- Decidable check that every nonempty suffix of a concrete block is
stuck for `pat`. -/
def allStuck (pat : List Char) : List Char → Bool
  | [] => true
  | c :: cs => stuck pat (c :: cs) && allStuck pat cs

/-- Substring test (used to state properties of rendered bodies). -/
def containsL (needle hay : List Char) : Bool :=
  (scan1 (dropLitCS needle) hay).isSome

/-- Substring test on strings. -/
def containsStr (needle hay : String) : Bool :=
  containsL needle.data hay.data

/-- Case-insensitive token containment, used to state that a comment
carries no `/approve` or `/reject` token. -/
def hasTokCI (tok s : String) : Bool :=
  (scan1 (dropLitCI tok.data) s.data).isSome

/-! Segment decomposition of the trimmed issue body, used to reason about
the leftmost-match scans of `parseIssueBody` over a rendered body. -/

/-- Leading text of the trimmed body, up to and including the title label
and its following space. -/
def segHead : List Char := "## New Publication Detected\n\n**Title:** ".data

/-- Gap plus authors label plus space. -/
def segA : List Char := "\n\n**Authors:** ".data

/-- Gap plus journal label plus space. -/
def segJ : List Char := "\n\n**Journal:** ".data

/-- Gap plus year label plus space. -/
def segY : List Char := "\n\n**Year:** ".data

/-- Blank-line gap. -/
def segG : List Char := "\n\n".data

/-- Single newline between the DOI and PMID lines. -/
def segNL : List Char := "\n".data

/-- Gap plus source label plus space. -/
def segS : List Char := "\n\n**Source:** ".data

/-- Actions section up to and including `/approve `. -/
def segAct1 : List Char :=
  "\n\n---\n\n### Actions\n\nTo approve this publication and add it to the website, comment:\n```\n/approve ".data

/-- Text between the two command references, up to and including
`/reject `. -/
def segAct2 : List Char :=
  "\n```\n\nTo reject this publication (won't be asked again), comment:\n```\n/reject ".data

/-- Closing code fence. -/
def segAct3 : List Char := "\n```".data

/-- The characters of the trimmed issue body, as a segment
decomposition. -/
def bodyM (pub : PublicationRecord) : List Char :=
  segHead ++ pub.title.data ++ segA ++ (jsOrS pub.authors "N/A").data ++
  segJ ++ (if pub.journal == "" then "N/A" else pub.journal).data ++
  segY ++ (yearText pub.year).data ++ segG ++ (doiLine pub).data ++
  segNL ++ (pmidLine pub).data ++ segS ++ pub.source.data ++
  segAct1 ++ (cmdRef pub).data ++ segAct2 ++ (cmdRef pub).data ++ segAct3

/-- Concrete ORCID-shaped record used in witnesses. -/
def pubC5a : PublicationRecord :=
  ⟨"A", none, some 2024, "J", some "10.2/w", none, "orcid"⟩

/-- Concrete PubMed-shaped record with the same doi, used in witnesses. -/
def pubC5b : PublicationRecord :=
  ⟨"A again", some "X", some 2024, "J2", some "10.2/w", some "55", "pubmed"⟩

/-- Concrete record with neither doi nor pmid (both `null`). -/
def pubC6 : PublicationRecord :=
  ⟨"T", some "A", some 2020, "J", none, none, "orcid"⟩

/-- A text field survives the render/re-parse round trip when it is
nonempty, free of `*` and of line terminators, and has no leading or
trailing whitespace. -/
def goodFieldB (cs : List Char) : Bool :=
  !cs.isEmpty &&
  cs.all (fun c => !(c = '*') && !(lineTerm c)) &&
  (match cs.head? with
   | some c => !(jsWS c)
   | none => false) &&
  (match cs.getLast? with
   | some c => !(jsWS c)
   | none => false)

/-- An identifier survives the round trip when it is nonempty and free of
`*` and of whitespace. -/
def goodTokB (cs : List Char) : Bool :=
  !cs.isEmpty && cs.all (fun c => !(c = '*') && !(jsWS c))

/-- Concrete record whose authors field is absent, used for the C1
counterexample. -/
def pubC1cex : PublicationRecord :=
  ⟨"Foo", none, some 2020, "J", some "10.1/x", none, "orcid"⟩

/-- Concrete well-formed record used for the C1 witness. -/
def pubC1wit : PublicationRecord :=
  ⟨"Gene regulation in cyanobacteria", some "Rubin BE, Smith J",
    some 2024, "PNAS", some "10.1073/pnas.1", some "39012345", "orcid"⟩

/-! Spec-side model of the inbound-command contract (spec §3, §4.5):
a Decision with enumerated action and idType, recognized at the first
occurrence of either command pattern. Written from the spec's words, to
be compared with `parseCommand` from the source. -/

/-- Spec §3: `action: approve | reject`. -/
inductive SAction where
  | approve : SAction
  | reject : SAction
deriving DecidableEq

/-- Spec §3: `idType: doi | pmid`. -/
inductive SIdType where
  | doi : SIdType
  | pmid : SIdType
deriving DecidableEq

/-- Spec §3: Decision record with enumerated fields. -/
structure SDecision where
  action : SAction
  idType : SIdType
  idValue : String
deriving DecidableEq

/-- Canonical spelling of a spec action. -/
def sActionStr : SAction → String
  | .approve => "approve"
  | .reject => "reject"

/-- Canonical spelling of a spec idType. -/
def sIdTypeStr : SIdType → String
  | .doi => "doi"
  | .pmid => "pmid"

/-- Spec §4.5 occurrence test at one position: the command word,
whitespace, `doi:` or `pmid:`, then a token (maximal nonempty run of
non-whitespace), all case-insensitively. -/
def specMatchAt (cmdWord : List Char) (act : SAction) (s : List Char) :
    Option SDecision :=
  match dropLitCI cmdWord s with
  | none => none
  | some (_, r) =>
    if (r.takeWhile jsWS).isEmpty then none
    else
      match dropLitCI "doi:".data (r.dropWhile jsWS) with
      | some (_, r3) =>
        if (r3.takeWhile (fun c => !(jsWS c))).isEmpty then none
        else some ⟨act, .doi, String.mk (r3.takeWhile (fun c => !(jsWS c)))⟩
      | none =>
        match dropLitCI "pmid:".data (r.dropWhile jsWS) with
        | some (_, r3) =>
          if (r3.takeWhile (fun c => !(jsWS c))).isEmpty then none
          else some ⟨act, .pmid, String.mk (r3.takeWhile (fun c => !(jsWS c)))⟩
        | none => none

/-- Spec-side: first occurrence of the approve pattern. -/
def specFindA (c : String) : Option SDecision :=
  scan1 (specMatchAt "/approve".data SAction.approve) c.data

/-- Spec-side: first occurrence of the reject pattern. -/
def specFindR (c : String) : Option SDecision :=
  scan1 (specMatchAt "/reject".data SAction.reject) c.data

/-- Spec-side reading of §4.5: the Decision at the first occurrence of
either the approve pattern or the reject pattern, whichever starts
earliest in the comment. -/
def specParseCommand (c : String) : Option SDecision :=
  scan1 (fun u =>
    match specMatchAt "/approve".data SAction.approve u with
    | some d => some d
    | none => specMatchAt "/reject".data SAction.reject u) c.data

/-- Correspondence between a code-level Decision (raw strings, idType in
the letter case the comment used) and a spec-level Decision (enums). -/
def corr (d : Decision) (sd : SDecision) : Prop :=
  d.action = sActionStr sd.action ∧
  d.idType.data.map Char.toLower = (sIdTypeStr sd.idType).data ∧
  d.idValue = sd.idValue

instance (d : Decision) (sd : SDecision) : Decidable (corr d sd) := by
  unfold corr
  infer_instance

/-! ## Scanning infrastructure lemmas -/

theorem scan1_eq_some {α : Type} {m : List Char → Option α} {s : List Char}
    {v : α} (h : m s = some v) : scan1 m s = some v := by
  cases s <;> simp [scan1, h]

theorem scan1_cons_of_none {α : Type} {m : List Char → Option α} {c : Char}
    {cs : List Char} (h : m (c :: cs) = none) :
    scan1 m (c :: cs) = scan1 m cs := by
  simp [scan1, h]

theorem scan1_isSome_of_suffix {α : Type} {m : List Char → Option α}
    {u s : List Char} {v : α} (hm : m u = some v) (hs : u <:+ s) :
    (scan1 m s).isSome = true := by
  induction s with
  | nil =>
    have hu : u = [] := List.eq_nil_of_suffix_nil hs
    subst hu
    simp [scan1, hm]
  | cons c cs ih =>
    rcases List.suffix_cons_iff.1 hs with h | h
    · subst h
      simp [scan1_eq_some hm]
    · cases hmc : m (c :: cs) with
      | some w => simp [scan1_eq_some hmc]
      | none => rw [scan1_cons_of_none hmc]; exact ih h

theorem dropLitCS_eq_none_of_stuck {pat s : List Char}
    (h : stuck pat s = true) (z : List Char) :
    dropLitCS pat (s ++ z) = none := by
  induction pat generalizing s with
  | nil => simp [stuck] at h
  | cons p ps ih =>
    cases s with
    | nil => simp [stuck] at h
    | cons c cs =>
      by_cases hpc : p = c
      · simp only [stuck, if_pos hpc] at h
        simpa [dropLitCS, hpc] using ih h
      · simp [dropLitCS, hpc]

theorem stuck_append {pat s : List Char} (h : stuck pat s = true)
    (z : List Char) : stuck pat (s ++ z) = true := by
  induction pat generalizing s with
  | nil => simp [stuck] at h
  | cons p ps ih =>
    cases s with
    | nil => simp [stuck] at h
    | cons c cs =>
      by_cases hpc : p = c
      · simp only [stuck, if_pos hpc] at h ⊢
        exact ih h
      · simp [stuck, hpc]

theorem skipOk_nil (pat : List Char) : SkipOk pat [] := by
  intro s hs hne
  exact absurd (List.eq_nil_of_suffix_nil hs) hne

theorem suffix_split {s x y : List Char} (h : s <:+ x ++ y) :
    (∃ s', s' <:+ x ∧ s = s' ++ y) ∨ s <:+ y := by
  induction x with
  | nil => exact Or.inr h
  | cons c cs ih =>
    rcases List.suffix_cons_iff.1 h with h1 | h1
    · exact Or.inl ⟨c :: cs, List.suffix_refl _, h1⟩
    · rcases ih h1 with ⟨s', hs', rfl⟩ | h2
      · exact Or.inl ⟨s', hs'.trans (List.suffix_cons c cs), rfl⟩
      · exact Or.inr h2

theorem skipOk_append {pat x y : List Char} (hx : SkipOk pat x)
    (hy : SkipOk pat y) : SkipOk pat (x ++ y) := by
  intro s hs hne
  rcases suffix_split hs with ⟨s', hs', rfl⟩ | h
  · cases s' with
    | nil =>
      simp only [List.nil_append] at hne ⊢
      exact hy y (List.suffix_refl y) hne
    | cons c cs =>
      exact stuck_append (hx _ hs' (by simp)) y
  · exact hy s h hne

theorem skipOk_of_allStuck {pat a : List Char} (h : allStuck pat a = true) :
    SkipOk pat a := by
  induction a with
  | nil => exact skipOk_nil pat
  | cons c cs ih =>
    intro s hs hne
    simp only [allStuck, Bool.and_eq_true] at h
    rcases List.suffix_cons_iff.1 hs with h1 | h1
    · subst h1; exact h.1
    · exact ih h.2 s h1 hne

theorem skipOk_of_head_ne {p : Char} {ps a : List Char}
    (h : ∀ c ∈ a, p ≠ c) : SkipOk (p :: ps) a := by
  intro s hs hne
  cases s with
  | nil => exact absurd rfl hne
  | cons c cs =>
    have hc : c ∈ a := hs.subset (by simp)
    simp [stuck, h c hc]

theorem scan1_skip {α : Type} {m : List Char → Option α} {pat : List Char}
    (hm : ∀ u, dropLitCS pat u = none → m u = none) {a : List Char}
    (ha : SkipOk pat a) (z : List Char) :
    scan1 m (a ++ z) = scan1 m z := by
  induction a with
  | nil => rfl
  | cons c cs ih =>
    have hstuck : stuck pat (c :: cs) = true :=
      ha _ (List.suffix_refl _) (by simp)
    have hnone : m ((c :: cs) ++ z) = none :=
      hm _ (dropLitCS_eq_none_of_stuck hstuck z)
    rw [List.cons_append, scan1_cons_of_none (by simpa using hnone)]
    exact ih (fun s hs hne => ha s (hs.trans (List.suffix_cons c cs)) hne)

theorem dropLitCS_self (pat z : List Char) :
    dropLitCS pat (pat ++ z) = some z := by
  induction pat with
  | nil => rfl
  | cons p ps ih => simp [dropLitCS, ih]

theorem takeWhile_all_stop {p : Char → Bool} {xs : List Char} {y : Char}
    {ys : List Char} (hx : ∀ x ∈ xs, p x = true) (hy : p y = false) :
    (xs ++ y :: ys).takeWhile p = xs := by
  induction xs with
  | nil => simp [List.takeWhile_cons, hy]
  | cons a l ih =>
    have ha : p a = true := hx a (by simp)
    simp only [List.cons_append, List.takeWhile_cons, ha, if_true]
    rw [ih (fun x hxl => hx x (by simp [hxl]))]

theorem dropWhile_all_stop {p : Char → Bool} {xs : List Char} {y : Char}
    {ys : List Char} (hx : ∀ x ∈ xs, p x = true) (hy : p y = false) :
    (xs ++ y :: ys).dropWhile p = y :: ys := by
  induction xs with
  | nil => simp [List.dropWhile_cons, hy]
  | cons a l ih =>
    have ha : p a = true := hx a (by simp)
    simp only [List.cons_append, List.dropWhile_cons, ha, if_true]
    exact ih (fun x hxl => hx x (by simp [hxl]))

/-! ## Supporting lemmas about the pipeline functions -/

theorem parseCommand_action {c : String} {cmd : Decision}
    (h : parseCommand c = some cmd) :
    cmd.action = "approve" ∨ cmd.action = "reject" := by
  unfold parseCommand at h
  split at h
  · injection h with h2
    subst h2
    exact Or.inl rfl
  · split at h
    · injection h with h2
      subst h2
      exact Or.inr rfl
    · exact absurd h (by simp)

theorem matchCmdAt_none_of_dropLitCI_none {cmd u : List Char}
    (h : dropLitCI cmd u = none) : matchCmdAt cmd u = none := by
  simp [matchCmdAt, h]

theorem scan1_none_mono {α β : Type} {m1 : List Char → Option α}
    {m2 : List Char → Option β} (hmono : ∀ u, m1 u = none → m2 u = none)
    {s : List Char} (h : scan1 m1 s = none) : scan1 m2 s = none := by
  induction s with
  | nil => exact hmono [] h
  | cons c cs ih =>
    cases hm : m1 (c :: cs) with
    | some v => rw [scan1_eq_some hm] at h; exact absurd h (by simp)
    | none =>
      rw [scan1_cons_of_none hm] at h
      rw [scan1_cons_of_none (hmono _ hm)]
      exact ih h

theorem findCmd_none_of_hasTokCI_false {tok s : String}
    (h : hasTokCI tok s = false) : findCmd tok.data s.data = none := by
  have hsc : scan1 (dropLitCI tok.data) s.data = none := by
    cases hc : scan1 (dropLitCI tok.data) s.data with
    | some v => rw [hasTokCI, hc] at h; exact absurd h (by simp)
    | none => rfl
  exact scan1_none_mono (fun u hu => matchCmdAt_none_of_dropLitCI_none hu) hsc

theorem dedupKey_of_doi {p : PublicationRecord} {d : String}
    (hd : p.doi = some d) (hne : d ≠ "") : dedupKey p = d := by
  simp [dedupKey, jsOrS, hd, hne]

theorem dedupGo_filter_mem {k : String} {seen : List String}
    {l : List PublicationRecord} (h : k ∈ seen) :
    (dedupGo seen l).filter (fun p => dedupKey p == k) = [] := by
  induction l generalizing seen with
  | nil => rfl
  | cons p rest ih =>
    rw [dedupGo]
    by_cases hc : seen.contains (dedupKey p) = true
    · rw [if_pos hc]
      exact ih h
    · rw [if_neg hc]
      have hne : (dedupKey p == k) = false := by
        rw [beq_eq_false_iff_ne]
        intro he
        have hm : dedupKey p ∈ seen := he ▸ h
        exact hc (by simpa [List.contains, List.elem_iff] using hm)
      rw [List.filter_cons, hne]
      simp only [Bool.false_eq_true, if_false]
      exact ih (List.mem_cons_of_mem _ h)

theorem dedupGo_filter_not_mem {k : String} {seen : List String}
    {l : List PublicationRecord} (h : k ∉ seen) :
    (dedupGo seen l).filter (fun p => dedupKey p == k) =
      (l.filter (fun p => dedupKey p == k)).take 1 := by
  induction l generalizing seen with
  | nil => rfl
  | cons p rest ih =>
    rw [dedupGo]
    by_cases hc : seen.contains (dedupKey p) = true
    · have hmem : dedupKey p ∈ seen := by
        simpa [List.contains, List.elem_iff] using hc
      have hne : (dedupKey p == k) = false := by
        rw [beq_eq_false_iff_ne]
        intro he
        exact h (he ▸ hmem)
      rw [if_pos hc, List.filter_cons, hne]
      simp only [Bool.false_eq_true, if_false]
      exact ih h
    · rw [if_neg hc]
      by_cases hk : (dedupKey p == k) = true
      · have hkk : dedupKey p = k := by simpa using hk
        rw [List.filter_cons, hk]
        simp only [if_true]
        rw [List.filter_cons, hk]
        simp only [if_true, List.take_succ_cons, List.take_zero]
        rw [dedupGo_filter_mem (hkk ▸ List.mem_cons_self _ _)]
      · have hk' : (dedupKey p == k) = false := by
          cases hkb : (dedupKey p == k) with
          | true => exact absurd hkb hk
          | false => rfl
        rw [List.filter_cons, hk']
        simp only [Bool.false_eq_true, if_false]
        rw [List.filter_cons, hk']
        simp only [Bool.false_eq_true, if_false]
        refine ih ?_
        intro hmem
        rcases List.mem_cons.1 hmem with he | he
        · exact hk (by simp [he])
        · exact h he

theorem find?_eq_head?_filter {α : Type} (p : α → Bool) (l : List α) :
    l.find? p = (l.filter p).head? := by
  induction l with
  | nil => rfl
  | cons a t ih =>
    by_cases ha : p a = true
    · rw [List.find?_cons_of_pos _ ha, List.filter_cons, ha]
      simp
    · have ha' : p a = false := by
        cases hb : p a with
        | true => exact absurd hb ha
        | false => rfl
      rw [List.find?_cons_of_neg _ (by simp [ha']), List.filter_cons, ha']
      simp only [Bool.false_eq_true, if_false]
      exact ih

/-! ## Claim theorems -/

/-- Claim C2: a freshly fetched record whose doi equals the doi of some
entry in the dataset's rejected list (both non-empty) is excluded from
`findNew`'s output, even when it appears in neither approved nor
pending. -/
theorem C2_rejected_doi_excluded (pubs : List PublicationRecord)
    (data : Dataset) (pub : PublicationRecord) (r : CuratedPublication)
    (d : String) (hr : r ∈ data.rejected) (hpd : pub.doi = some d)
    (hrd : r.doi = some d) (hne : d ≠ "") :
    pub ∉ findNew pubs data := by
  intro hmem
  have hm1 : matchesOne pub r = true := by
    simp [matchesOne, truthy, hpd, hrd, hne]
  have hex : publicationExists pub data = true := by
    rw [publicationExists, List.any_eq_true]
    exact ⟨r, by simp [hr], hm1⟩
  rw [findNew, List.mem_filter] at hmem
  rw [hex] at hmem
  exact absurd hmem.2 (by simp)

/-- Witness for C2 at a concrete input. -/
theorem C2_rejected_doi_excluded_witness :
    (⟨"c2r", "Old", "", "", some 2019, some "10.9/z", none, ⟨none⟩⟩ : CuratedPublication) ∈
      (Dataset.mk [] [] [⟨"c2r", "Old", "", "", some 2019, some "10.9/z", none, ⟨none⟩⟩]).rejected ∧
    (⟨"New paper", none, some 2024, "J", some "10.9/z", none, "orcid"⟩ : PublicationRecord) ∉
      findNew [⟨"New paper", none, some 2024, "J", some "10.9/z", none, "orcid"⟩]
        (Dataset.mk [] [] [⟨"c2r", "Old", "", "", some 2019, some "10.9/z", none, ⟨none⟩⟩]) :=
  ⟨by decide,
   C2_rejected_doi_excluded _ _ _
     ⟨"c2r", "Old", "", "", some 2019, some "10.9/z", none, ⟨none⟩⟩ "10.9/z"
     (by decide) rfl rfl (by decide)⟩

/-- Claim C3: the comment `/approve doi:10.5/y` against a body containing
`**Title:** Foo` and `**DOI:** 10.5/y` parses to the approve Decision with
idType doi and idValue 10.5/y, and the decision-apply step appends exactly
one entry to `approved` whose `links.paper` is `https://doi.org/10.5/y`. -/
theorem C3_scenario_b (d : Dataset) (id : String) :
    parseCommand "/approve doi:10.5/y" = some ⟨"approve", "doi", "10.5/y"⟩ ∧
    (applyStep d ⟨"approve", "doi", "10.5/y"⟩
        (parseIssueBody "**Title:** Foo\n**DOI:** 10.5/y") id).approved =
      d.approved ++
        [buildPublication (parseIssueBody "**Title:** Foo\n**DOI:** 10.5/y") id] ∧
    (buildPublication (parseIssueBody "**Title:** Foo\n**DOI:** 10.5/y") id).links.paper =
      some "https://doi.org/10.5/y" := by
  refine ⟨by decide, ?_, ?_⟩
  · simp [applyStep]
  · simp only [buildPublication]
    decide

/-- Claim C5: for two fetched records with the same non-empty doi, one
from ORCID and one from PubMed, exactly one record with that dedup key
survives the single-pass deduplication, and the survivor is the first
record in fetch order with that key, which lies in the ORCID list. -/
theorem C5_dedup_first_survives (ops pps : List PublicationRecord)
    (a b : PublicationRecord) (d : String) (hao : a ∈ ops) (hbp : b ∈ pps)
    (had : a.doi = some d) (hbd : b.doi = some d) (hne : d ≠ "") :
    ∃ c, (dedupPubs (ops ++ pps)).filter (fun p => dedupKey p == d) = [c] ∧
      (ops ++ pps).find? (fun p => dedupKey p == d) = some c ∧ c ∈ ops := by
  have hka : (dedupKey a == d) = true := by
    simp [dedupKey_of_doi had hne]
  have hfo : (List.find? (fun p => dedupKey p == d) ops).isSome = true := by
    rw [List.find?_isSome]
    exact ⟨a, hao, hka⟩
  obtain ⟨c, hc⟩ := Option.isSome_iff_exists.1 hfo
  have hcmem : c ∈ ops := List.mem_of_find?_eq_some hc
  have hfind : (ops ++ pps).find? (fun p => dedupKey p == d) = some c := by
    rw [List.find?_append, hc]
    rfl
  refine ⟨c, ?_, hfind, hcmem⟩
  have hfilter : (dedupPubs (ops ++ pps)).filter (fun p => dedupKey p == d) =
      ((ops ++ pps).filter (fun p => dedupKey p == d)).take 1 := by
    rw [dedupPubs]
    exact dedupGo_filter_not_mem (by simp)
  rw [hfilter]
  rw [find?_eq_head?_filter] at hfind
  cases hfe : (ops ++ pps).filter (fun p => dedupKey p == d) with
  | nil => rw [hfe] at hfind; exact absurd hfind (by simp)
  | cons c0 t =>
    rw [hfe] at hfind
    simp only [List.head?_cons, Option.some_inj] at hfind
    rw [hfind]
    rfl

/-- Witness for C5 at concrete inputs. -/
theorem C5_dedup_first_survives_witness :
    ∃ c, (dedupPubs ([pubC5a] ++ [pubC5b])).filter
          (fun p => dedupKey p == "10.2/w") = [c] ∧
      ([pubC5a] ++ [pubC5b]).find? (fun p => dedupKey p == "10.2/w") = some c ∧
      c ∈ [pubC5a] :=
  C5_dedup_first_survives [pubC5a] [pubC5b] pubC5a pubC5b "10.2/w"
    (by decide) (by decide) rfl rfl (by decide)

/-- Claim C7: the decision-apply step leaves `pending` unchanged and, for a
parsed decision, appends the built publication only to `approved` (action
approve) or only to `rejected` (action reject), leaving the other list
unchanged. -/
theorem C7_frame (data : Dataset) (c : String) (cmd : Decision)
    (pd : ParsedDetails) (id : String) (h : parseCommand c = some cmd) :
    (applyStep data cmd pd id).pending = data.pending ∧
    (cmd.action = "approve" →
      (applyStep data cmd pd id).approved =
          data.approved ++ [buildPublication pd id] ∧
        (applyStep data cmd pd id).rejected = data.rejected) ∧
    (cmd.action = "reject" →
      (applyStep data cmd pd id).rejected =
          data.rejected ++ [buildPublication pd id] ∧
        (applyStep data cmd pd id).approved = data.approved) := by
  rcases parseCommand_action h with ha | ha
  · refine ⟨by simp [applyStep, ha], fun _ => by simp [applyStep, ha], ?_⟩
    intro hr
    rw [ha] at hr
    exact absurd hr (by decide)
  · refine ⟨by simp [applyStep, ha], ?_, fun _ => by simp [applyStep, ha]⟩
    intro hap
    rw [ha] at hap
    exact absurd hap (by decide)

/-- Witness for C7 at concrete inputs. -/
theorem C7_frame_witness :
    (applyStep (Dataset.mk [] [] []) ⟨"approve", "doi", "10.5/y"⟩
        ⟨"T", "", "", none, some "10.5/y", none⟩ "id1").pending = [] ∧
    ((⟨"approve", "doi", "10.5/y"⟩ : Decision).action = "approve" →
      (applyStep (Dataset.mk [] [] []) ⟨"approve", "doi", "10.5/y"⟩
          ⟨"T", "", "", none, some "10.5/y", none⟩ "id1").approved =
        [] ++ [buildPublication ⟨"T", "", "", none, some "10.5/y", none⟩ "id1"] ∧
      (applyStep (Dataset.mk [] [] []) ⟨"approve", "doi", "10.5/y"⟩
          ⟨"T", "", "", none, some "10.5/y", none⟩ "id1").rejected = []) ∧
    ((⟨"approve", "doi", "10.5/y"⟩ : Decision).action = "reject" →
      (applyStep (Dataset.mk [] [] []) ⟨"approve", "doi", "10.5/y"⟩
          ⟨"T", "", "", none, some "10.5/y", none⟩ "id1").rejected =
        [] ++ [buildPublication ⟨"T", "", "", none, some "10.5/y", none⟩ "id1"] ∧
      (applyStep (Dataset.mk [] [] []) ⟨"approve", "doi", "10.5/y"⟩
          ⟨"T", "", "", none, some "10.5/y", none⟩ "id1").approved = []) :=
  C7_frame (Dataset.mk [] [] []) "/approve doi:10.5/y" ⟨"approve", "doi", "10.5/y"⟩
    ⟨"T", "", "", none, some "10.5/y", none⟩ "id1" (by decide)

/-- Claim C9: the appended publication's fields come entirely from parsing
the request body; the decision's idType and idValue do not influence the
stored record or which fields it gets, and no consistency check between
command identifier and body identifiers is performed. -/
theorem C9_decision_id_ignored (data : Dataset) (cmd1 cmd2 : Decision)
    (body id : String) (hact : cmd1.action = cmd2.action) :
    applyStep data cmd1 (parseIssueBody body) id =
      applyStep data cmd2 (parseIssueBody body) id ∧
    (buildPublication (parseIssueBody body) id).title =
      (parseIssueBody body).title ∧
    (buildPublication (parseIssueBody body) id).authors =
      (parseIssueBody body).authors ∧
    (buildPublication (parseIssueBody body) id).journal =
      (parseIssueBody body).journal ∧
    (buildPublication (parseIssueBody body) id).year =
      (parseIssueBody body).year ∧
    (buildPublication (parseIssueBody body) id).doi =
      (parseIssueBody body).doi ∧
    (buildPublication (parseIssueBody body) id).pmid =
      (parseIssueBody body).pmid := by
  refine ⟨?_, rfl, rfl, rfl, rfl, rfl, rfl⟩
  simp only [applyStep, hact]

/-- Witness for C9 at concrete inputs. -/
theorem C9_decision_id_ignored_witness :
    applyStep (Dataset.mk [] [] []) ⟨"approve", "doi", "10.5/y"⟩
        (parseIssueBody "**Title:** Foo\n**DOI:** 10.5/y") "id1" =
      applyStep (Dataset.mk [] [] []) ⟨"approve", "pmid", "999"⟩
        (parseIssueBody "**Title:** Foo\n**DOI:** 10.5/y") "id1" ∧
    (buildPublication (parseIssueBody "**Title:** Foo\n**DOI:** 10.5/y") "id1").title =
      (parseIssueBody "**Title:** Foo\n**DOI:** 10.5/y").title ∧
    (buildPublication (parseIssueBody "**Title:** Foo\n**DOI:** 10.5/y") "id1").authors =
      (parseIssueBody "**Title:** Foo\n**DOI:** 10.5/y").authors ∧
    (buildPublication (parseIssueBody "**Title:** Foo\n**DOI:** 10.5/y") "id1").journal =
      (parseIssueBody "**Title:** Foo\n**DOI:** 10.5/y").journal ∧
    (buildPublication (parseIssueBody "**Title:** Foo\n**DOI:** 10.5/y") "id1").year =
      (parseIssueBody "**Title:** Foo\n**DOI:** 10.5/y").year ∧
    (buildPublication (parseIssueBody "**Title:** Foo\n**DOI:** 10.5/y") "id1").doi =
      (parseIssueBody "**Title:** Foo\n**DOI:** 10.5/y").doi ∧
    (buildPublication (parseIssueBody "**Title:** Foo\n**DOI:** 10.5/y") "id1").pmid =
      (parseIssueBody "**Title:** Foo\n**DOI:** 10.5/y").pmid :=
  C9_decision_id_ignored (Dataset.mk [] [] []) ⟨"approve", "doi", "10.5/y"⟩
    ⟨"approve", "pmid", "999"⟩ "**Title:** Foo\n**DOI:** 10.5/y" "id1" rfl

/-- Claim C8: a comment containing no `/approve` and no `/reject` token
yields none from `parseCommand`, and the decision-apply cycle terminates
without writing the dataset file. -/
theorem C8_noop_on_unrecognized (comment body : String) (data : Dataset)
    (id : String) (ha : hasTokCI "/approve" comment = false)
    (hr : hasTokCI "/reject" comment = false) :
    parseCommand comment = none ∧
    ∀ d, decisionCycle comment body data id ≠ CycleResult.wrote d := by
  have hfa := findCmd_none_of_hasTokCI_false ha
  have hfr := findCmd_none_of_hasTokCI_false hr
  have hp : parseCommand comment = none := by
    rw [parseCommand, hfa, hfr]
  refine ⟨hp, ?_⟩
  intro d hd
  rw [decisionCycle] at hd
  by_cases hc : comment = "" <;> simp [hc, hp] at hd

/-- Witness for C8 at a concrete input. -/
theorem C8_noop_on_unrecognized_witness :
    parseCommand "looks good to me!" = none ∧
    ∀ d, decisionCycle "looks good to me!" "**Title:** Foo" (Dataset.mk [] [] [])
        "id1" ≠ CycleResult.wrote d :=
  C8_noop_on_unrecognized "looks good to me!" "**Title:** Foo"
    (Dataset.mk [] [] []) "id1" (by decide) (by decide)

/-- Claim C10: a pair of fetched records that the identity matcher would
deem the same publication (same non-empty pmid; the earlier one also has a
doi, the later one has none) both survive the single-pass deduplication,
because their seen-set keys differ (doi for the first, pmid for the
second). -/
theorem C10_dedup_pmid_pair_both_survive :
    dedupPubs [⟨"Alpha", none, some 2023, "J", some "10.1/x", some "123", "orcid"⟩,
        ⟨"Alpha.", some "R B", some 2023, "J", none, some "123", "pubmed"⟩] =
      [⟨"Alpha", none, some 2023, "J", some "10.1/x", some "123", "orcid"⟩,
        ⟨"Alpha.", some "R B", some 2023, "J", none, some "123", "pubmed"⟩] ∧
    dedupKey ⟨"Alpha", none, some 2023, "J", some "10.1/x", some "123", "orcid"⟩ =
      "10.1/x" ∧
    dedupKey ⟨"Alpha.", some "R B", some 2023, "J", none, some "123", "pubmed"⟩ =
      "123" ∧
    (⟨"Alpha", none, some 2023, "J", some "10.1/x", some "123", "orcid"⟩ :
        PublicationRecord).pmid =
      (⟨"Alpha.", some "R B", some 2023, "J", none, some "123", "pubmed"⟩ :
        PublicationRecord).pmid ∧
    matchesOne ⟨"Alpha.", some "R B", some 2023, "J", none, some "123", "pubmed"⟩
      ⟨"idA", "Alpha", "", "J", some 2023, some "10.1/x", some "123", ⟨none⟩⟩ = true := by
  decide

/-! ## Structure of the rendered issue body -/

theorem rawBody_data (pub : PublicationRecord) :
    (rawIssueBody pub).data = '\n' :: (bodyM pub ++ ['\n']) := by
  rw [bodyM]
  simp only [rawIssueBody, String.data_append, segHead, segA, segJ, segY, segG,
    segNL, segS, segAct1, segAct2, segAct3, List.append_assoc]
  rfl

theorem bodyM_dropWhile (pub : PublicationRecord) (z : List Char) :
    List.dropWhile jsWS (bodyM pub ++ z) = bodyM pub ++ z := by
  rw [bodyM]
  rw [show segHead = '#' :: "# New Publication Detected\n\n**Title:** ".data from rfl]
  simp only [List.cons_append, List.dropWhile_cons]
  rw [show jsWS '#' = false from rfl]
  simp

theorem bodyM_rev_dropWhile (pub : PublicationRecord) :
    List.dropWhile jsWS (bodyM pub).reverse = (bodyM pub).reverse := by
  rw [bodyM]
  simp only [List.reverse_append]
  rw [show segAct3.reverse = '`' :: "``\n".data from rfl]
  simp only [List.cons_append, List.dropWhile_cons]
  rw [show jsWS '`' = false from rfl]
  simp

theorem dropWhile_cons_true {p : Char → Bool} {c : Char} {cs : List Char}
    (h : p c = true) : (c :: cs).dropWhile p = cs.dropWhile p := by
  simp [List.dropWhile_cons, h]

theorem dropWhile_cons_false {p : Char → Bool} {c : Char} {cs : List Char}
    (h : p c = false) : (c :: cs).dropWhile p = c :: cs := by
  simp [List.dropWhile_cons, h]

theorem takeWhile_cons_true {p : Char → Bool} {c : Char} {cs : List Char}
    (h : p c = true) : (c :: cs).takeWhile p = c :: cs.takeWhile p := by
  simp [List.takeWhile_cons, h]

theorem takeWhile_cons_false {p : Char → Bool} {c : Char} {cs : List Char}
    (h : p c = false) : (c :: cs).takeWhile p = [] := by
  simp [List.takeWhile_cons, h]

theorem data_mk (l : List Char) : (String.mk l).data = l := rfl

theorem genBody_data (pub : PublicationRecord) :
    (generateIssueBody pub).data = bodyM pub := by
  unfold generateIssueBody
  rw [data_mk, rawBody_data pub, jsTrimL]
  rw [dropWhile_cons_true (show jsWS '\n' = true from rfl)]
  rw [bodyM_dropWhile pub ['\n']]
  rw [show (bodyM pub ++ ['\n']).reverse = '\n' :: (bodyM pub).reverse from by simp]
  rw [dropWhile_cons_true (show jsWS '\n' = true from rfl)]
  rw [bodyM_rev_dropWhile pub]
  exact List.reverse_reverse _

theorem suffix_append_right {u y : List Char} (x : List Char) (h : u <:+ y) :
    u <:+ x ++ y :=
  h.trans (List.suffix_append x y)

theorem bodyM_approve_suffix (pub : PublicationRecord) :
    ("/approve ".data ++ ((cmdRef pub).data ++ (segAct2 ++ ((cmdRef pub).data ++ segAct3)))) <:+
      bodyM pub := by
  rw [bodyM]
  rw [show segAct1 =
    "\n\n---\n\n### Actions\n\nTo approve this publication and add it to the website, comment:\n```\n".data ++
      "/approve ".data from rfl]
  simp only [List.append_assoc]
  repeat first
    | exact List.suffix_refl _
    | apply suffix_append_right

theorem bodyM_reject_suffix (pub : PublicationRecord) :
    ("/reject ".data ++ ((cmdRef pub).data ++ segAct3)) <:+ bodyM pub := by
  rw [bodyM]
  rw [show segAct2 =
    "\n```\n\nTo reject this publication (won't be asked again), comment:\n```\n".data ++
      "/reject ".data from rfl]
  simp only [List.append_assoc]
  repeat first
    | exact List.suffix_refl _
    | apply suffix_append_right

/-- Claim C6 counterexample: for a record whose doi and pmid are both
absent (`null`), the rendered command templates reference `pmid:null`,
not `pmid:` with an empty value. -/
theorem C6_empty_ids_cex :
    truthy pubC6.doi = false ∧ truthy pubC6.pmid = false ∧
    cmdRef pubC6 = "pmid:null" ∧ cmdRef pubC6 ≠ "pmid:" ∧
    containsStr "/approve pmid:null" (generateIssueBody pubC6) = true ∧
    containsStr "/approve pmid:\n" (generateIssueBody pubC6) = false := by
  decide

/-- Claim C6 (amended): when neither doi nor pmid is truthy, the command
templates reference `pmid:` followed by the JS rendering of the pmid
value: the literal text `null` when the pmid is absent (and then both
rendered command templates read `pmid:null`), and an empty value only
when the pmid is the empty string. -/
theorem C6_empty_ids_amended (pub : PublicationRecord)
    (hd : truthy pub.doi = false) (hp : truthy pub.pmid = false) :
    cmdRef pub = "pmid:" ++ jsStr pub.pmid ∧
    (pub.pmid = none →
      containsStr "/approve pmid:null" (generateIssueBody pub) = true ∧
      containsStr "/reject pmid:null" (generateIssueBody pub) = true) ∧
    (pub.pmid = some "" → cmdRef pub = "pmid:") := by
  refine ⟨?_, ?_, ?_⟩
  · unfold cmdRef
    rw [hd]
    simp
  · intro hpn
    have hc : cmdRef pub = "pmid:null" := by
      unfold cmdRef
      rw [hd, hpn]
      rfl
    constructor
    · have hsuf := bodyM_approve_suffix pub
      rw [hc] at hsuf
      rw [← List.append_assoc] at hsuf
      rw [show "/approve ".data ++ ("pmid:null" : String).data =
        ("/approve pmid:null" : String).data from rfl] at hsuf
      show containsL ("/approve pmid:null").data (generateIssueBody pub).data = true
      rw [genBody_data, containsL]
      exact scan1_isSome_of_suffix (dropLitCS_self _ _) hsuf
    · have hsuf := bodyM_reject_suffix pub
      rw [hc] at hsuf
      rw [← List.append_assoc] at hsuf
      rw [show "/reject ".data ++ ("pmid:null" : String).data =
        ("/reject pmid:null" : String).data from rfl] at hsuf
      show containsL ("/reject pmid:null").data (generateIssueBody pub).data = true
      rw [genBody_data, containsL]
      exact scan1_isSome_of_suffix (dropLitCS_self _ _) hsuf
  · intro hpe
    unfold cmdRef
    rw [hd, hpe]
    rfl

/-- Witness for the amended C6 at a concrete input. -/
theorem C6_empty_ids_amended_witness :
    cmdRef pubC6 = "pmid:" ++ jsStr pubC6.pmid ∧
    containsStr "/approve pmid:null" (generateIssueBody pubC6) = true ∧
    containsStr "/reject pmid:null" (generateIssueBody pubC6) = true :=
  have h := C6_empty_ids_amended pubC6 (by decide) (by decide)
  ⟨h.1, (h.2.1 rfl).1, (h.2.1 rfl).2⟩

/-! ## Relating parseCommand to the spec-side command contract -/

theorem toNat_ofNatAux (n : Nat) (h : n.isValidChar) :
    (Char.ofNatAux n h).toNat = n := by
  simp [Char.ofNatAux, Char.toNat, UInt32.toNat, BitVec.toNat_ofNatLt]

theorem toLower_dichotomy (c : Char) :
    c.toLower = c ∨ (97 ≤ c.toLower.toNat ∧ c.toLower.toNat ≤ 122) := by
  unfold Char.toLower
  by_cases h : c.toNat ≥ 65 ∧ c.toNat ≤ 90
  · right
    rw [if_pos h]
    have hv : Nat.isValidChar (c.toNat + 32) := by
      left
      omega
    rw [Char.ofNat, dif_pos hv, toNat_ofNatAux]
    omega
  · left
    simp [h]

theorem eq_of_toLower_eq_nonletter {c d : Char}
    (hrange : ¬ (97 ≤ d.toNat ∧ d.toNat ≤ 122)) (h : c.toLower = d) :
    c = d := by
  rcases toLower_dichotomy c with h1 | h1
  · rw [← h1, h]
  · rw [h] at h1
    exact absurd h1 hrange

theorem dropLitCI_raw {pat s raw r : List Char}
    (h : dropLitCI pat s = some (raw, r)) :
    raw.map Char.toLower = pat.map Char.toLower ∧ s = raw ++ r := by
  induction pat generalizing s raw r with
  | nil =>
    rw [dropLitCI] at h
    injection h with h1
    injection h1 with h2 h3
    subst h2
    subst h3
    exact ⟨rfl, rfl⟩
  | cons p ps ih =>
    cases s with
    | nil => exact absurd h (by simp [dropLitCI])
    | cons c cs =>
      rw [dropLitCI] at h
      by_cases hpc : charCI p c = true
      · rw [if_pos hpc] at h
        cases hin : dropLitCI ps cs with
        | none => rw [hin] at h; exact absurd h (by simp)
        | some mr =>
          obtain ⟨m, r0⟩ := mr
          rw [hin] at h
          injection h with h1
          injection h1 with h2 h3
          subst h3
          subst h2
          obtain ⟨ihm, ihs⟩ := ih hin
          have hlc : c.toLower = p.toLower := by
            rw [charCI, Bool.or_eq_true] at hpc
            rcases hpc with he | he
            · rw [decide_eq_true_iff] at he
              rw [he]
            · rw [decide_eq_true_iff] at he
              rw [he]
          refine ⟨?_, by rw [ihs]; rfl⟩
          simp [hlc, ihm]
      · rw [if_neg hpc] at h
        exact absurd h (by simp)

theorem rmColon_doi {raw : List Char}
    (h : raw.map Char.toLower = "doi:".data) :
    (rmColon raw).map Char.toLower = "doi".data := by
  obtain ⟨c1, c2, c3, c4, rfl⟩ : ∃ c1 c2 c3 c4, raw = [c1, c2, c3, c4] := by
    cases raw with
    | nil => simp at h
    | cons c1 t1 =>
      cases t1 with
      | nil => simp at h
      | cons c2 t2 =>
        cases t2 with
        | nil => simp at h
        | cons c3 t3 =>
          cases t3 with
          | nil => simp at h
          | cons c4 t4 =>
            cases t4 with
            | nil => exact ⟨c1, c2, c3, c4, rfl⟩
            | cons c5 t5 => simp at h
  obtain ⟨h1, h2, h3, h4⟩ : c1.toLower = 'd' ∧ c2.toLower = 'o' ∧
      c3.toLower = 'i' ∧ c4.toLower = ':' := by
    simpa using h
  have hc1 : ¬ (c1 = ':') := fun he => by
    rw [he] at h1; exact absurd h1 (by decide)
  have hc2 : ¬ (c2 = ':') := fun he => by
    rw [he] at h2; exact absurd h2 (by decide)
  have hc3 : ¬ (c3 = ':') := fun he => by
    rw [he] at h3; exact absurd h3 (by decide)
  have hc4 : c4 = ':' := eq_of_toLower_eq_nonletter (by decide) h4
  simp [rmColon, hc1, hc2, hc3, hc4, h1, h2, h3]

theorem rmColon_pmid {raw : List Char}
    (h : raw.map Char.toLower = "pmid:".data) :
    (rmColon raw).map Char.toLower = "pmid".data := by
  obtain ⟨c1, c2, c3, c4, c5, rfl⟩ : ∃ c1 c2 c3 c4 c5, raw = [c1, c2, c3, c4, c5] := by
    cases raw with
    | nil => simp at h
    | cons c1 t1 =>
      cases t1 with
      | nil => simp at h
      | cons c2 t2 =>
        cases t2 with
        | nil => simp at h
        | cons c3 t3 =>
          cases t3 with
          | nil => simp at h
          | cons c4 t4 =>
            cases t4 with
            | nil => simp at h
            | cons c5 t5 =>
              cases t5 with
              | nil => exact ⟨c1, c2, c3, c4, c5, rfl⟩
              | cons c6 t6 => simp at h
  obtain ⟨h1, h2, h3, h4, h5⟩ : c1.toLower = 'p' ∧ c2.toLower = 'm' ∧
      c3.toLower = 'i' ∧ c4.toLower = 'd' ∧ c5.toLower = ':' := by
    simpa using h
  have hc1 : ¬ (c1 = ':') := fun he => by
    rw [he] at h1; exact absurd h1 (by decide)
  have hc2 : ¬ (c2 = ':') := fun he => by
    rw [he] at h2; exact absurd h2 (by decide)
  have hc3 : ¬ (c3 = ':') := fun he => by
    rw [he] at h3; exact absurd h3 (by decide)
  have hc4 : ¬ (c4 = ':') := fun he => by
    rw [he] at h4; exact absurd h4 (by decide)
  have hc5 : c5 = ':' := eq_of_toLower_eq_nonletter (by decide) h5
  simp [rmColon, hc1, hc2, hc3, hc4, hc5, h1, h2, h3, h4]

theorem matchCmd_spec_cases (cmd : List Char) (act : SAction) (u : List Char) :
    (matchCmdAt cmd u = none ∧ specMatchAt cmd act u = none) ∨
    (∃ tag tok, matchCmdAt cmd u = some (tag, tok) ∧
      ((tag.map Char.toLower = "doi:".data ∧
          specMatchAt cmd act u = some ⟨act, SIdType.doi, String.mk tok⟩) ∨
        (tag.map Char.toLower = "pmid:".data ∧
          specMatchAt cmd act u = some ⟨act, SIdType.pmid, String.mk tok⟩))) := by
  cases hd : dropLitCI cmd u with
  | none => exact Or.inl ⟨by simp [matchCmdAt, hd], by simp [specMatchAt, hd]⟩
  | some pr =>
    obtain ⟨raw0, r⟩ := pr
    by_cases hws : (r.takeWhile jsWS).isEmpty = true
    · exact Or.inl ⟨by simp [matchCmdAt, hd, hws], by simp [specMatchAt, hd, hws]⟩
    · cases hdoi : dropLitCI "doi:".data (r.dropWhile jsWS) with
      | some pr2 =>
        obtain ⟨tagd, r3⟩ := pr2
        by_cases htok : ((r3.takeWhile (fun c => !(jsWS c))).isEmpty) = true
        · exact Or.inl ⟨by simp [matchCmdAt, hd, hws, hdoi, htok],
            by simp [specMatchAt, hd, hws, hdoi, htok]⟩
        · refine Or.inr ⟨tagd, r3.takeWhile (fun c => !(jsWS c)), ?_, Or.inl ⟨?_, ?_⟩⟩
          · simp [matchCmdAt, hd, hws, hdoi, htok]
          · have := (dropLitCI_raw hdoi).1
            rw [this]
            decide
          · simp [specMatchAt, hd, hws, hdoi, htok]
      | none =>
        cases hpm : dropLitCI "pmid:".data (r.dropWhile jsWS) with
        | some pr2 =>
          obtain ⟨tagp, r3⟩ := pr2
          by_cases htok : ((r3.takeWhile (fun c => !(jsWS c))).isEmpty) = true
          · exact Or.inl ⟨by simp [matchCmdAt, hd, hws, hdoi, hpm, htok],
              by simp [specMatchAt, hd, hws, hdoi, hpm, htok]⟩
          · refine Or.inr ⟨tagp, r3.takeWhile (fun c => !(jsWS c)), ?_, Or.inr ⟨?_, ?_⟩⟩
            · simp [matchCmdAt, hd, hws, hdoi, hpm, htok]
            · have := (dropLitCI_raw hpm).1
              rw [this]
              decide
            · simp [specMatchAt, hd, hws, hdoi, hpm, htok]
        | none =>
          exact Or.inl ⟨by simp [matchCmdAt, hd, hws, hdoi, hpm],
            by simp [specMatchAt, hd, hws, hdoi, hpm]⟩

theorem scan1_rel {α β : Type} {m1 : List Char → Option α}
    {m2 : List Char → Option β} {R : α → β → Prop}
    (hiff : ∀ u, m1 u = none ↔ m2 u = none)
    (hsome : ∀ u a b, m1 u = some a → m2 u = some b → R a b)
    (s : List Char) :
    (scan1 m1 s = none ∧ scan1 m2 s = none) ∨
    (∃ a b, scan1 m1 s = some a ∧ scan1 m2 s = some b ∧ R a b) := by
  induction s with
  | nil =>
    cases hm : m1 [] with
    | none => exact Or.inl ⟨by simpa [scan1] using hm, by simpa [scan1] using (hiff []).1 hm⟩
    | some a =>
      cases hm2 : m2 [] with
      | none => exact absurd ((hiff []).2 hm2) (by simp [hm])
      | some b =>
        exact Or.inr ⟨a, b, by simpa [scan1] using hm, by simpa [scan1] using hm2,
          hsome [] a b hm hm2⟩
  | cons c cs ih =>
    cases hm : m1 (c :: cs) with
    | none =>
      have hm2 : m2 (c :: cs) = none := (hiff _).1 hm
      rw [scan1_cons_of_none hm, scan1_cons_of_none hm2]
      exact ih
    | some a =>
      cases hm2 : m2 (c :: cs) with
      | none => exact absurd ((hiff _).2 hm2) (by simp [hm])
      | some b =>
        exact Or.inr ⟨a, b, scan1_eq_some hm, scan1_eq_some hm2, hsome _ a b hm hm2⟩

theorem matchCmd_none_iff (cmd : List Char) (act : SAction) (u : List Char) :
    matchCmdAt cmd u = none ↔ specMatchAt cmd act u = none := by
  rcases matchCmd_spec_cases cmd act u with ⟨h1, h2⟩ | ⟨tag, tok, h1, h2⟩
  · simp [h1, h2]
  · rcases h2 with ⟨_, h2⟩ | ⟨_, h2⟩ <;> simp [h1, h2]

theorem corr_of_match (act : SAction) {cmd : List Char} {u : List Char}
    {tag tok : List Char} {sd : SDecision} {actStr : String}
    (hact : actStr = sActionStr act)
    (h1 : matchCmdAt cmd u = some (tag, tok))
    (h2 : specMatchAt cmd act u = some sd) :
    corr ⟨actStr, String.mk (rmColon tag), String.mk tok⟩ sd := by
  rcases matchCmd_spec_cases cmd act u with ⟨hn, _⟩ | ⟨tag', tok', hm, hc⟩
  · rw [hn] at h1; exact absurd h1 (by simp)
  · rw [hm] at h1
    injection h1 with h1
    injection h1 with he1 he2
    subst he1
    subst he2
    rcases hc with ⟨htag, hs⟩ | ⟨htag, hs⟩
    · rw [hs] at h2
      injection h2 with h2
      subst h2
      exact ⟨hact, by rw [data_mk]; exact rmColon_doi htag, rfl⟩
    · rw [hs] at h2
      injection h2 with h2
      subst h2
      exact ⟨hact, by rw [data_mk]; exact rmColon_pmid htag, rfl⟩

/-- Claim C4 counterexample: when a reject command occurs before an
approve command, `parseCommand` returns the approve Decision, not the
Decision of the first occurrence of either pattern. -/
theorem C4_first_occurrence_cex :
    parseCommand "/reject doi:a /approve doi:b" = some ⟨"approve", "doi", "b"⟩ ∧
    specParseCommand "/reject doi:a /approve doi:b" =
      some ⟨SAction.reject, SIdType.doi, "a"⟩ ∧
    ¬ corr ⟨"approve", "doi", "b"⟩ ⟨SAction.reject, SIdType.doi, "a"⟩ := by
  refine ⟨by decide, by decide, ?_⟩
  intro hc
  exact absurd hc.1 (by decide)

/-- Claim C4 (amended): `parseCommand` recognizes, case-insensitively,
the first occurrence of the approve pattern; only when no approve pattern
occurs anywhere does it recognize the first occurrence of the reject
pattern (approve takes precedence regardless of position); it returns
none when neither pattern occurs. -/
theorem C4_parse_command_amended (c : String) :
    (∀ sd, specFindA c = some sd →
      ∃ d, parseCommand c = some d ∧ corr d sd) ∧
    (specFindA c = none → ∀ sd, specFindR c = some sd →
      ∃ d, parseCommand c = some d ∧ corr d sd) ∧
    (specFindA c = none → specFindR c = none → parseCommand c = none) := by
  have hA := @scan1_rel (List Char × List Char) SDecision
    (matchCmdAt "/approve".data)
    (specMatchAt "/approve".data SAction.approve)
    (fun a b => corr ⟨"approve", String.mk (rmColon a.1), String.mk a.2⟩ b)
    (fun u => matchCmd_none_iff _ SAction.approve u)
    (fun u a b h1 h2 => corr_of_match SAction.approve rfl (by rw [← h1]) h2) c.data
  have hR := @scan1_rel (List Char × List Char) SDecision
    (matchCmdAt "/reject".data)
    (specMatchAt "/reject".data SAction.reject)
    (fun a b => corr ⟨"reject", String.mk (rmColon a.1), String.mk a.2⟩ b)
    (fun u => matchCmd_none_iff _ SAction.reject u)
    (fun u a b h1 h2 => corr_of_match SAction.reject rfl (by rw [← h1]) h2) c.data
  refine ⟨?_, ?_, ?_⟩
  · intro sd hsd
    rw [specFindA] at hsd
    rcases hA with ⟨hn1, hn2⟩ | ⟨a, b, h1, h2, hab⟩
    · rw [hsd] at hn2
      exact absurd hn2 (by simp)
    · rw [hsd] at h2
      injection h2 with h2
      subst h2
      obtain ⟨tag, tok⟩ := a
      refine ⟨⟨"approve", String.mk (rmColon tag), String.mk tok⟩, ?_, hab⟩
      rw [parseCommand]
      rw [show findCmd "/approve".data c.data =
        some (tag, tok) from h1]
  · intro hna sd hsd
    rw [specFindA] at hna
    rw [specFindR] at hsd
    have hfa : findCmd "/approve".data c.data = none := by
      rcases hA with ⟨hn1, _⟩ | ⟨a, b, h1, h2, _⟩
      · exact hn1
      · rw [hna] at h2
        exact absurd h2 (by simp)
    rcases hR with ⟨hn1, hn2⟩ | ⟨a, b, h1, h2, hab⟩
    · rw [hsd] at hn2
      exact absurd hn2 (by simp)
    · rw [hsd] at h2
      injection h2 with h2
      subst h2
      obtain ⟨tag, tok⟩ := a
      refine ⟨⟨"reject", String.mk (rmColon tag), String.mk tok⟩, ?_, hab⟩
      rw [parseCommand, hfa]
      rw [show findCmd "/reject".data c.data = some (tag, tok) from h1]
  · intro hna hnr
    rw [specFindA] at hna
    rw [specFindR] at hnr
    have hfa : findCmd "/approve".data c.data = none := by
      rcases hA with ⟨hn1, _⟩ | ⟨a, b, h1, h2, _⟩
      · exact hn1
      · rw [hna] at h2
        exact absurd h2 (by simp)
    have hfr : findCmd "/reject".data c.data = none := by
      rcases hR with ⟨hn1, _⟩ | ⟨a, b, h1, h2, _⟩
      · exact hn1
      · rw [hnr] at h2
        exact absurd h2 (by simp)
    rw [parseCommand, hfa, hfr]

/-- Witness for the amended C4 at a concrete input. -/
theorem C4_parse_command_amended_witness :
    ∃ d, parseCommand "ok then /ApProve DOI:10.7/Q thanks" = some d ∧
      corr d ⟨SAction.approve, SIdType.doi, "10.7/Q"⟩ :=
  (C4_parse_command_amended "ok then /ApProve DOI:10.7/Q thanks").1
    ⟨SAction.approve, SIdType.doi, "10.7/Q"⟩ (by decide)

theorem matchDotAt_hm (lbl : List Char) :
    ∀ u, dropLitCS lbl u = none → matchDotAt lbl u = none := by
  intro u h
  simp [matchDotAt, h]

theorem matchTokAt_hm (lbl : List Char) :
    ∀ u, dropLitCS lbl u = none → matchTokAt lbl u = none := by
  intro u h
  simp [matchTokAt, h]

theorem matchDigitsAt_hm (lbl : List Char) :
    ∀ u, dropLitCS lbl u = none → matchDigitsAt lbl u = none := by
  intro u h
  simp [matchDigitsAt, h]

theorem scan1_none_of_skipOk {α : Type} {m : List Char → Option α}
    {pat : List Char} (hm : ∀ u, dropLitCS pat u = none → m u = none)
    (hpat : pat ≠ []) {a : List Char} (ha : SkipOk pat a) :
    scan1 m a = none := by
  have h2 : scan1 m a = scan1 m [] := by
    conv_lhs => rw [← List.append_nil a]
    exact scan1_skip hm ha []
  rw [h2]
  show m [] = none
  apply hm
  cases pat with
  | nil => exact absurd rfl hpat
  | cons p ps => rfl

theorem scan1_skip_cons {α : Type} {m : List Char → Option α}
    {pat : List Char} (hm : ∀ u, dropLitCS pat u = none → m u = none)
    {c : Char} {rest : List Char} (h0 : ∀ z, m (c :: (rest ++ z)) = none)
    (hrest : SkipOk pat rest) (z : List Char) :
    scan1 m ((c :: rest) ++ z) = scan1 m z := by
  rw [List.cons_append, scan1_cons_of_none (h0 z)]
  exact scan1_skip hm hrest z

theorem jsTrimL_id {cs : List Char}
    (hh : ∀ c, cs.head? = some c → jsWS c = false)
    (hl : ∀ c, cs.getLast? = some c → jsWS c = false) : jsTrimL cs = cs := by
  cases cs with
  | nil => rfl
  | cons c cs' =>
    rw [jsTrimL, dropWhile_cons_false (hh c rfl)]
    cases hrev : (c :: cs').reverse with
    | nil => exact absurd hrev (by simp)
    | cons h t =>
      have hhd : (c :: cs').getLast? = some h := by
        rw [← List.head?_reverse, hrev]
        rfl
      rw [dropWhile_cons_false (hl h hhd), ← hrev, List.reverse_reverse]

theorem matchDotAt_seam (lbl T z : List Char) (hT : T ≠ [])
    (hhead : ∀ c, T.head? = some c → jsWS c = false)
    (hLT : ∀ c ∈ T, lineTerm c = false) :
    matchDotAt lbl (lbl ++ (' ' :: (T ++ '\n' :: z))) = some T := by
  cases T with
  | nil => exact absurd rfl hT
  | cons t0 T' =>
    have hdw : (' ' :: ((t0 :: T') ++ '\n' :: z)).dropWhile jsWS =
        t0 :: (T' ++ '\n' :: z) := by
      rw [dropWhile_cons_true (show jsWS ' ' = true from rfl), List.cons_append]
      exact dropWhile_cons_false (hhead t0 rfl)
    have hcap : ((t0 :: (T' ++ '\n' :: z)).takeWhile (fun x => !(lineTerm x))) =
        t0 :: T' := by
      have hstep := @takeWhile_all_stop (fun x => !(lineTerm x))
        (t0 :: T') '\n' z (fun x hx => by simp [hLT x hx]) rfl
      simpa using hstep
    simp only [matchDotAt, dropLitCS_self, hdw, hcap]

theorem matchTokAt_seam (lbl D z : List Char) (hD : D ≠ [])
    (hWS : ∀ c ∈ D, jsWS c = false) :
    matchTokAt lbl (lbl ++ (' ' :: (D ++ '\n' :: z))) = some D := by
  cases D with
  | nil => exact absurd rfl hD
  | cons d0 D' =>
    have hdw : (' ' :: ((d0 :: D') ++ '\n' :: z)).dropWhile jsWS =
        d0 :: (D' ++ '\n' :: z) := by
      rw [dropWhile_cons_true (show jsWS ' ' = true from rfl), List.cons_append]
      exact dropWhile_cons_false (hWS d0 (by simp))
    have hcap : ((d0 :: (D' ++ '\n' :: z)).takeWhile (fun c => !(jsWS c))) =
        d0 :: D' := by
      have hstep := @takeWhile_all_stop (fun c => !(jsWS c))
        (d0 :: D') '\n' z (fun x hx => by simp [hWS x hx]) rfl
      simpa using hstep
    simp only [matchTokAt, dropLitCS_self, hdw, hcap]
    simp

theorem jsDigit_not_ws {c : Char} (h : jsDigit c = true) : jsWS c = false := by
  rw [jsDigit, Bool.and_eq_true] at h
  obtain ⟨h1, h2⟩ := h
  rw [decide_eq_true_iff] at h1 h2
  cases hb : jsWS c with
  | false => rfl
  | true =>
    exfalso
    rw [jsWS] at hb
    simp only [Bool.or_eq_true, Bool.and_eq_true, decide_eq_true_iff] at hb
    omega

theorem jsDigit_not_star {c : Char} (h : jsDigit c = true) : ¬ ('*' = c) := by
  rw [jsDigit, Bool.and_eq_true] at h
  obtain ⟨h1, h2⟩ := h
  rw [decide_eq_true_iff] at h1 h2
  intro he
  rw [← he] at h1
  exact absurd h1 (by decide)

theorem matchDigitsAt_seam (lbl N z : List Char) (hN : N ≠ [])
    (hdig : ∀ c ∈ N, jsDigit c = true) :
    matchDigitsAt lbl (lbl ++ (' ' :: (N ++ '\n' :: z))) = some N := by
  cases N with
  | nil => exact absurd rfl hN
  | cons n0 N' =>
    have hdw : (' ' :: ((n0 :: N') ++ '\n' :: z)).dropWhile jsWS =
        n0 :: (N' ++ '\n' :: z) := by
      rw [dropWhile_cons_true (show jsWS ' ' = true from rfl), List.cons_append]
      exact dropWhile_cons_false (jsDigit_not_ws (hdig n0 (by simp)))
    have hcap : ((n0 :: (N' ++ '\n' :: z)).takeWhile jsDigit) = n0 :: N' := by
      have hstep := @takeWhile_all_stop jsDigit
        (n0 :: N') '\n' z (fun x hx => hdig x hx) rfl
      simpa using hstep
    simp only [matchDigitsAt, dropLitCS_self, hdw, hcap]
    simp

theorem matchDigitsAt_seam_nondigit (lbl : List Char) (c : Char) (z : List Char)
    (hc1 : jsWS c = false) (hc2 : jsDigit c = false) :
    matchDigitsAt lbl (lbl ++ (' ' :: (c :: z))) = none := by
  have hdw : (' ' :: (c :: z)).dropWhile jsWS = c :: z := by
    rw [dropWhile_cons_true (show jsWS ' ' = true from rfl)]
    exact dropWhile_cons_false hc1
  have hcap : ((c :: z).takeWhile jsDigit) = [] := takeWhile_cons_false hc2
  simp only [matchDigitsAt, dropLitCS_self, hdw, hcap]
  simp

theorem toNat_ofNat_small {m : Nat} (h : m < 55296) :
    (Char.ofNat m).toNat = m := by
  rw [Char.ofNat, dif_pos (Or.inl h)]
  exact toNat_ofNatAux m (Or.inl h)

theorem decReprAux_digits (fuel : Nat) : ∀ (n : Nat),
    ∀ c ∈ decReprAux fuel n, jsDigit c = true := by
  induction fuel with
  | zero => intro n c hc; exact absurd hc (by simp [decReprAux])
  | succ fuel ih =>
    intro n c hc
    rw [decReprAux] at hc
    by_cases hn : n < 10
    · rw [if_pos hn] at hc
      simp only [List.mem_singleton] at hc
      subst hc
      rw [jsDigit, toNat_ofNat_small (by omega)]
      simp only [Bool.and_eq_true, decide_eq_true_iff]
      omega
    · rw [if_neg hn] at hc
      rcases List.mem_append.1 hc with hm | hm
      · exact ih (n / 10) c hm
      · simp only [List.mem_singleton] at hm
        subst hm
        have hlt : n % 10 < 10 := Nat.mod_lt n (by omega)
        rw [jsDigit, toNat_ofNat_small (by omega)]
        simp only [Bool.and_eq_true, decide_eq_true_iff]
        omega

theorem decReprAux_ne_nil (fuel n : Nat) : decReprAux (fuel + 1) n ≠ [] := by
  rw [decReprAux]
  by_cases hn : n < 10
  · rw [if_pos hn]
    simp
  · rw [if_neg hn]
    simp

theorem parseDec_append_digit (xs : List Char) (c : Char) :
    parseDec (xs ++ [c]) = parseDec xs * 10 + (c.toNat - 48) := by
  rw [parseDec, parseDec, List.foldl_append]
  rfl

theorem parseDec_decReprAux (fuel : Nat) : ∀ n : Nat, n < 10 ^ fuel →
    parseDec (decReprAux fuel n) = n := by
  induction fuel with
  | zero =>
    intro n h
    interval_cases n
    rfl
  | succ fuel ih =>
    intro n h
    rw [decReprAux]
    by_cases hn : n < 10
    · rw [if_pos hn]
      show parseDec ([] ++ [Char.ofNat (48 + n)]) = n
      rw [parseDec_append_digit]
      rw [toNat_ofNat_small (by omega)]
      show 0 * 10 + (48 + n - 48) = n
      omega
    · rw [if_neg hn]
      rw [parseDec_append_digit]
      have hdiv : n / 10 < 10 ^ fuel := by
        rw [pow_succ] at h
        omega
      rw [ih (n / 10) hdiv, toNat_ofNat_small (by omega)]
      omega

theorem parseDec_decRepr (n : Nat) : parseDec (decRepr n).data = n := by
  rw [decRepr, data_mk]
  refine parseDec_decReprAux (n + 1) n ?_
  calc n < 10 ^ n := Nat.lt_pow_self (by omega) n
  _ ≤ 10 ^ (n + 1) := Nat.pow_le_pow_right (by omega) (by omega)

theorem decRepr_digits (n : Nat) : ∀ c ∈ (decRepr n).data, jsDigit c = true := by
  rw [decRepr, data_mk]
  exact decReprAux_digits (n + 1) n

theorem decRepr_ne_nil (n : Nat) : (decRepr n).data ≠ [] := by
  rw [decRepr, data_mk]
  exact decReprAux_ne_nil n n

theorem goodFieldB_ne_nil {cs : List Char} (h : goodFieldB cs = true) :
    cs ≠ [] := by
  rw [goodFieldB] at h
  simp only [Bool.and_eq_true] at h
  intro he
  subst he
  exact absurd h.1.1.1 (by decide)

theorem goodFieldB_no_star {cs : List Char} (h : goodFieldB cs = true) :
    ∀ c ∈ cs, ¬ ('*' = c) := by
  rw [goodFieldB] at h
  simp only [Bool.and_eq_true, List.all_eq_true] at h
  intro c hc he
  have := h.1.1.2 c hc
  rw [← he] at this
  exact absurd this (by decide)

theorem goodFieldB_no_lt {cs : List Char} (h : goodFieldB cs = true) :
    ∀ c ∈ cs, lineTerm c = false := by
  rw [goodFieldB] at h
  simp only [Bool.and_eq_true, List.all_eq_true] at h
  intro c hc
  have := h.1.1.2 c hc
  simp only [Bool.and_eq_true, Bool.not_eq_true'] at this
  exact this.2

theorem goodFieldB_head {cs : List Char} (h : goodFieldB cs = true) :
    ∀ c, cs.head? = some c → jsWS c = false := by
  rw [goodFieldB] at h
  simp only [Bool.and_eq_true] at h
  intro c hc
  have h2 := h.1.2
  rw [hc] at h2
  simpa using h2

theorem goodFieldB_last {cs : List Char} (h : goodFieldB cs = true) :
    ∀ c, cs.getLast? = some c → jsWS c = false := by
  rw [goodFieldB] at h
  simp only [Bool.and_eq_true] at h
  intro c hc
  have h2 := h.2
  rw [hc] at h2
  simpa using h2

theorem goodTokB_ne_nil {cs : List Char} (h : goodTokB cs = true) :
    cs ≠ [] := by
  rw [goodTokB] at h
  simp only [Bool.and_eq_true] at h
  intro he
  subst he
  exact absurd h.1 (by decide)

theorem goodTokB_no_star {cs : List Char} (h : goodTokB cs = true) :
    ∀ c ∈ cs, ¬ ('*' = c) := by
  rw [goodTokB] at h
  simp only [Bool.and_eq_true, List.all_eq_true] at h
  intro c hc he
  have := h.2 c hc
  rw [← he] at this
  exact absurd this (by decide)

theorem goodTokB_no_ws {cs : List Char} (h : goodTokB cs = true) :
    ∀ c ∈ cs, jsWS c = false := by
  rw [goodTokB] at h
  simp only [Bool.and_eq_true, List.all_eq_true] at h
  intro c hc
  have := h.2 c hc
  simp only [Bool.and_eq_true, Bool.not_eq_true'] at this
  exact this.2

theorem goodTokB_head {cs : List Char} (h : goodTokB cs = true) :
    ∀ c, cs.head? = some c → jsWS c = false := by
  intro c hc
  exact goodTokB_no_ws h c (by
    cases cs with
    | nil => exact absurd hc (by simp)
    | cons a l =>
      simp only [List.head?_cons, Option.some_inj] at hc
      subst hc
      simp)

theorem goodTokB_last {cs : List Char} (h : goodTokB cs = true) :
    ∀ c, cs.getLast? = some c → jsWS c = false := by
  intro c hc
  exact goodTokB_no_ws h c (List.mem_of_getLast?_eq_some hc)

theorem skipOk_star (pat : List Char) (hp : pat.head? = some '*')
    {a : List Char} (h : ∀ c ∈ a, ¬ ('*' = c)) : SkipOk pat a := by
  cases pat with
  | nil => exact absurd hp (by simp)
  | cons p ps =>
    simp only [List.head?_cons, Option.some_inj] at hp
    subst hp
    exact skipOk_of_head_ne h

theorem segHead_split :
    segHead = "## New Publication Detected\n\n".data ++ (lblT ++ [' ']) := rfl

theorem segA_cons : segA = '\n' :: "\n**Authors:** ".data := rfl

theorem segA_split : segA = "\n\n".data ++ (lblA ++ [' ']) := rfl

theorem segJ_cons : segJ = '\n' :: "\n**Journal:** ".data := rfl

theorem segJ_split : segJ = "\n\n".data ++ (lblJ ++ [' ']) := rfl

theorem segY_cons : segY = '\n' :: "\n**Year:** ".data := rfl

theorem segY_split : segY = "\n\n".data ++ (lblY ++ [' ']) := rfl

theorem segG_cons : segG = '\n' :: segNL := rfl

theorem str_ne_empty_of_data {s : String} (h : s.data ≠ []) : ¬ (s == "") = true := by
  intro he
  rw [beq_iff_eq] at he
  subst he
  exact h rfl

theorem jsOrS_some {o : Option String} {A : String} (ho : o = some A)
    (hA : A.data ≠ []) (d : String) : jsOrS o d = A := by
  rw [ho, jsOrS]
  rw [if_neg]
  intro he
  rw [beq_iff_eq] at he
  subst he
  exact hA rfl

theorem journal_if_eq {s : String} (h : s.data ≠ []) :
    (if s == "" then "N/A" else s) = s := by
  rw [if_neg]
  intro he
  rw [beq_iff_eq] at he
  subst he
  exact h rfl

theorem truthy_some {o : Option String} {d : String} (ho : o = some d)
    (hd : d.data ≠ []) : truthy o = true := by
  rw [ho, truthy]
  simp only [Bool.not_eq_true']
  cases hb : (d == "") with
  | false => rfl
  | true =>
    rw [beq_iff_eq] at hb
    subst hb
    exact absurd rfl hd

theorem doiLine_data_some {pub : PublicationRecord} {d : String}
    (hd : pub.doi = some d) (hne : d.data ≠ []) :
    (doiLine pub).data = lblD ++ (' ' :: d.data) := by
  rw [doiLine, if_pos (truthy_some hd hne), String.data_append, hd]
  rfl

theorem doiLine_data_none {pub : PublicationRecord}
    (hd : truthy pub.doi = false) : (doiLine pub).data = [] := by
  rw [doiLine, if_neg (by rw [hd]; simp)]

theorem pmidLine_data_some {pub : PublicationRecord} {p : String}
    (hp : pub.pmid = some p) (hne : p.data ≠ []) :
    (pmidLine pub).data = lblP ++ (' ' :: p.data) := by
  rw [pmidLine, if_pos (truthy_some hp hne), String.data_append, hp]
  rfl

theorem pmidLine_data_none {pub : PublicationRecord}
    (hp : truthy pub.pmid = false) : (pmidLine pub).data = [] := by
  rw [pmidLine, if_neg (by rw [hp]; simp)]

theorem yearText_pos {y : Option Int} {n : Nat} (hy : y = some (n : Int))
    (hn : 0 < n) : yearText y = decRepr n := by
  rw [hy, yearText, if_neg (by omega)]
  rw [intRepr, if_neg (by omega)]
  congr 1

theorem cmdRef_data_doi {pub : PublicationRecord} {d : String}
    (hd : pub.doi = some d) (hne : d.data ≠ []) :
    (cmdRef pub).data = "doi:".data ++ d.data := by
  rw [cmdRef, if_pos (truthy_some hd hne), String.data_append, hd]
  rfl

theorem cmdRef_data_no_doi {pub : PublicationRecord}
    (hd : truthy pub.doi = false) :
    (cmdRef pub).data = "pmid:".data ++ (jsStr pub.pmid).data := by
  rw [cmdRef, if_neg (by rw [hd]; simp), String.data_append]

theorem blockD_eq (X : List Char) :
    lblD ++ (' ' :: X) = "**DOI:** ".data ++ X := rfl

theorem blockP_eq (X : List Char) :
    lblP ++ (' ' :: X) = "**PMID:** ".data ++ X := rfl

theorem scan_title (pub : PublicationRecord)
    (ht : goodFieldB pub.title.data = true) :
    scan1 (matchDotAt lblT) (bodyM pub) = some pub.title.data := by
  have hB : bodyM pub =
      "## New Publication Detected\n\n".data ++
        (lblT ++ (' ' :: (pub.title.data ++ '\n' ::
          ("\n**Authors:** ".data ++ ((jsOrS pub.authors "N/A").data ++
            (segJ ++ ((if pub.journal == "" then "N/A" else pub.journal).data ++
              (segY ++ ((yearText pub.year).data ++ (segG ++ ((doiLine pub).data ++
                (segNL ++ ((pmidLine pub).data ++ (segS ++ (pub.source.data ++
                  (segAct1 ++ ((cmdRef pub).data ++ (segAct2 ++
                    ((cmdRef pub).data ++ segAct3))))))))))))))))))) := by
    rw [bodyM, segHead_split, segA_cons]
    simp only [List.append_assoc, List.cons_append, List.singleton_append,
      List.nil_append]
  have hsk : SkipOk lblT ("## New Publication Detected\n\n".data) :=
    skipOk_of_allStuck (by decide)
  rw [hB]
  rw [scan1_skip (matchDotAt_hm lblT) hsk]
  exact scan1_eq_some (matchDotAt_seam lblT pub.title.data _
    (goodFieldB_ne_nil ht) (goodFieldB_head ht) (goodFieldB_no_lt ht))

theorem scan_authors (pub : PublicationRecord) (A : String)
    (ht : goodFieldB pub.title.data = true)
    (ha : pub.authors = some A) (hA : goodFieldB A.data = true) :
    scan1 (matchDotAt lblA) (bodyM pub) = some A.data := by
  have hB : bodyM pub =
      (segHead ++ (pub.title.data ++ "\n\n".data)) ++
        (lblA ++ (' ' :: (A.data ++ '\n' ::
          ("\n**Journal:** ".data ++
            ((if pub.journal == "" then "N/A" else pub.journal).data ++
              (segY ++ ((yearText pub.year).data ++ (segG ++ ((doiLine pub).data ++
                (segNL ++ ((pmidLine pub).data ++ (segS ++ (pub.source.data ++
                  (segAct1 ++ ((cmdRef pub).data ++ (segAct2 ++
                    ((cmdRef pub).data ++ segAct3))))))))))))))))) := by
    rw [bodyM, segA_split, segJ_cons, jsOrS_some ha (goodFieldB_ne_nil hA) "N/A"]
    simp only [List.append_assoc, List.cons_append, List.singleton_append,
      List.nil_append]
  rw [hB]
  refine Eq.trans (scan1_skip (matchDotAt_hm lblA) ?_ _) ?_
  · refine skipOk_append (skipOk_of_allStuck (by decide)) (skipOk_append ?_ ?_)
    · exact skipOk_star lblA rfl (goodFieldB_no_star ht)
    · exact skipOk_of_allStuck (by decide)
  · exact scan1_eq_some (matchDotAt_seam lblA A.data _
      (goodFieldB_ne_nil hA) (goodFieldB_head hA) (goodFieldB_no_lt hA))

theorem scan_journal (pub : PublicationRecord) (A : String)
    (ht : goodFieldB pub.title.data = true)
    (ha : pub.authors = some A) (hA : goodFieldB A.data = true)
    (hj : goodFieldB pub.journal.data = true) :
    scan1 (matchDotAt lblJ) (bodyM pub) = some pub.journal.data := by
  have hB : bodyM pub =
      (segHead ++ (pub.title.data ++ (segA ++ (A.data ++ "\n\n".data)))) ++
        (lblJ ++ (' ' :: (pub.journal.data ++ '\n' ::
          ("\n**Year:** ".data ++
            ((yearText pub.year).data ++ (segG ++ ((doiLine pub).data ++
              (segNL ++ ((pmidLine pub).data ++ (segS ++ (pub.source.data ++
                (segAct1 ++ ((cmdRef pub).data ++ (segAct2 ++
                  ((cmdRef pub).data ++ segAct3))))))))))))))) := by
    rw [bodyM, segJ_split, segY_cons, jsOrS_some ha (goodFieldB_ne_nil hA) "N/A",
      journal_if_eq (goodFieldB_ne_nil hj)]
    simp only [List.append_assoc, List.cons_append, List.singleton_append,
      List.nil_append]
  rw [hB]
  refine Eq.trans (scan1_skip (matchDotAt_hm lblJ) ?_ _) ?_
  · refine skipOk_append (skipOk_of_allStuck (by decide))
      (skipOk_append (skipOk_star lblJ rfl (goodFieldB_no_star ht))
        (skipOk_append (skipOk_of_allStuck (by decide))
          (skipOk_append (skipOk_star lblJ rfl (goodFieldB_no_star hA))
            (skipOk_of_allStuck (by decide)))))
  · exact scan1_eq_some (matchDotAt_seam lblJ pub.journal.data _
      (goodFieldB_ne_nil hj) (goodFieldB_head hj) (goodFieldB_no_lt hj))

theorem truthy_false_some {p : String} (h : truthy (some p) = false) :
    p = "" := by
  rw [truthy] at h
  simp only [Bool.not_eq_false'] at h
  exact beq_iff_eq.1 h

theorem yearText_none : yearText none = "N/A" := rfl

theorem skipOk_yearText (pat : List Char) (hp : pat.head? = some '*')
    {y : Option Int}
    (hy : y = none ∨ ∃ n : Nat, 0 < n ∧ y = some (n : Int)) :
    SkipOk pat (yearText y).data := by
  rcases hy with hy | ⟨n, hn, hy⟩
  · rw [hy, yearText_none]
    exact skipOk_star pat hp (by decide)
  · rw [yearText_pos hy hn]
    exact skipOk_star pat hp
      (fun c hc => jsDigit_not_star (decRepr_digits n c hc))

theorem skipOk_doiLine (pat : List Char) (hp : pat.head? = some '*')
    (hstuck : allStuck pat "**DOI:** ".data = true) {pub : PublicationRecord}
    (hd : truthy pub.doi = false ∨
      ∃ d, pub.doi = some d ∧ goodTokB d.data = true) :
    SkipOk pat (doiLine pub).data := by
  rcases hd with hd | ⟨d, hd, hg⟩
  · rw [doiLine_data_none hd]
    exact skipOk_nil pat
  · rw [doiLine_data_some hd (goodTokB_ne_nil hg), blockD_eq]
    exact skipOk_append (skipOk_of_allStuck hstuck)
      (skipOk_star pat hp (goodTokB_no_star hg))

theorem skipOk_pmidLine (pat : List Char) (hp : pat.head? = some '*')
    (hstuck : allStuck pat "**PMID:** ".data = true) {pub : PublicationRecord}
    (hd : truthy pub.pmid = false ∨
      ∃ p, pub.pmid = some p ∧ goodTokB p.data = true) :
    SkipOk pat (pmidLine pub).data := by
  rcases hd with hd | ⟨p, hd, hg⟩
  · rw [pmidLine_data_none hd]
    exact skipOk_nil pat
  · rw [pmidLine_data_some hd (goodTokB_ne_nil hg), blockP_eq]
    exact skipOk_append (skipOk_of_allStuck hstuck)
      (skipOk_star pat hp (goodTokB_no_star hg))

theorem jsStr_no_star {o : Option String}
    (h : truthy o = false ∨ ∃ p, o = some p ∧ goodTokB p.data = true) :
    ∀ c ∈ (jsStr o).data, ¬ ('*' = c) := by
  cases ho : o with
  | none =>
    rw [jsStr]
    intro c hc he
    rw [← he] at hc
    exact absurd hc (by decide)
  | some p =>
    rcases h with h | ⟨p2, hp2, hg⟩
    · rw [ho] at h
      have := truthy_false_some h
      subst this
      rw [jsStr]
      intro c hc
      simp at hc
    · rw [ho] at hp2
      injection hp2 with hp2
      subst hp2
      rw [jsStr]
      exact goodTokB_no_star hg

theorem skipOk_cmdRef (pat : List Char) (hp : pat.head? = some '*')
    {pub : PublicationRecord}
    (hd : truthy pub.doi = false ∨
      ∃ d, pub.doi = some d ∧ goodTokB d.data = true)
    (hm : truthy pub.pmid = false ∨
      ∃ p, pub.pmid = some p ∧ goodTokB p.data = true) :
    SkipOk pat (cmdRef pub).data := by
  rcases hd with hd | ⟨d, hd, hg⟩
  · rw [cmdRef_data_no_doi hd]
    exact skipOk_append (skipOk_star pat hp (by decide))
      (skipOk_star pat hp (jsStr_no_star hm))
  · rw [cmdRef_data_doi hd (goodTokB_ne_nil hg)]
    exact skipOk_append (skipOk_star pat hp (by decide))
      (skipOk_star pat hp (goodTokB_no_star hg))

theorem source_no_star {s : String}
    (h : s.data.all (fun c => !(c = '*')) = true) :
    ∀ c ∈ s.data, ¬ ('*' = c) := by
  rw [List.all_eq_true] at h
  intro c hc he
  have := h c hc
  rw [← he] at this
  exact absurd this (by decide)

theorem scan_year_pos (pub : PublicationRecord) (A : String) (n : Nat)
    (ht : goodFieldB pub.title.data = true)
    (ha : pub.authors = some A) (hA : goodFieldB A.data = true)
    (hj : goodFieldB pub.journal.data = true)
    (hy : pub.year = some (n : Int)) (hn : 0 < n) :
    scan1 (matchDigitsAt lblY) (bodyM pub) = some (decRepr n).data := by
  have hB : bodyM pub =
      (segHead ++ (pub.title.data ++ (segA ++ (A.data ++
          (segJ ++ (pub.journal.data ++ "\n\n".data)))))) ++
        (lblY ++ (' ' :: ((decRepr n).data ++ '\n' ::
          (segNL ++ ((doiLine pub).data ++
            (segNL ++ ((pmidLine pub).data ++ (segS ++ (pub.source.data ++
              (segAct1 ++ ((cmdRef pub).data ++ (segAct2 ++
                ((cmdRef pub).data ++ segAct3))))))))))))) := by
    rw [bodyM, segY_split, segG_cons, jsOrS_some ha (goodFieldB_ne_nil hA) "N/A",
      journal_if_eq (goodFieldB_ne_nil hj), yearText_pos hy hn]
    simp only [List.append_assoc, List.cons_append, List.singleton_append,
      List.nil_append]
  rw [hB]
  refine Eq.trans (scan1_skip (matchDigitsAt_hm lblY) ?_ _) ?_
  · refine skipOk_append (skipOk_of_allStuck (by decide))
      (skipOk_append (skipOk_star lblY rfl (goodFieldB_no_star ht))
        (skipOk_append (skipOk_of_allStuck (by decide))
          (skipOk_append (skipOk_star lblY rfl (goodFieldB_no_star hA))
            (skipOk_append (skipOk_of_allStuck (by decide))
              (skipOk_append (skipOk_star lblY rfl (goodFieldB_no_star hj))
                (skipOk_of_allStuck (by decide)))))))
  · exact scan1_eq_some (matchDigitsAt_seam lblY (decRepr n).data _
      (decRepr_ne_nil n) (decRepr_digits n))

theorem scan_year_none (pub : PublicationRecord) (A : String)
    (ht : goodFieldB pub.title.data = true)
    (ha : pub.authors = some A) (hA : goodFieldB A.data = true)
    (hj : goodFieldB pub.journal.data = true)
    (hy : pub.year = none)
    (hdoi : truthy pub.doi = false ∨
      ∃ d, pub.doi = some d ∧ goodTokB d.data = true)
    (hpm : truthy pub.pmid = false ∨
      ∃ p, pub.pmid = some p ∧ goodTokB p.data = true)
    (hs : pub.source.data.all (fun c => !(c = '*')) = true) :
    scan1 (matchDigitsAt lblY) (bodyM pub) = none := by
  have hB : bodyM pub =
      (segHead ++ (pub.title.data ++ (segA ++ (A.data ++
          (segJ ++ (pub.journal.data ++ "\n\n".data)))))) ++
        (('*' :: "*Year:** N/A".data) ++
          (segG ++ ((doiLine pub).data ++
            (segNL ++ ((pmidLine pub).data ++ (segS ++ (pub.source.data ++
              (segAct1 ++ ((cmdRef pub).data ++ (segAct2 ++
                ((cmdRef pub).data ++ segAct3))))))))))) := by
    rw [bodyM, segY_split, hy, yearText_none,
      jsOrS_some ha (goodFieldB_ne_nil hA) "N/A",
      journal_if_eq (goodFieldB_ne_nil hj)]
    simp only [lblY, List.append_assoc, List.cons_append, List.singleton_append,
      List.nil_append]
  rw [hB]
  refine Eq.trans (scan1_skip (matchDigitsAt_hm lblY) ?_ _) ?_
  · refine skipOk_append (skipOk_of_allStuck (by decide))
      (skipOk_append (skipOk_star lblY rfl (goodFieldB_no_star ht))
        (skipOk_append (skipOk_of_allStuck (by decide))
          (skipOk_append (skipOk_star lblY rfl (goodFieldB_no_star hA))
            (skipOk_append (skipOk_of_allStuck (by decide))
              (skipOk_append (skipOk_star lblY rfl (goodFieldB_no_star hj))
                (skipOk_of_allStuck (by decide)))))))
  · refine Eq.trans (scan1_skip_cons (matchDigitsAt_hm lblY) ?_
        (skipOk_of_allStuck (by decide)) _) ?_
    · intro z
      exact matchDigitsAt_seam_nondigit lblY 'N' ('/' :: 'A' :: z)
        (by decide) (by decide)
    · refine scan1_none_of_skipOk (matchDigitsAt_hm lblY) (by decide) ?_
      refine skipOk_append (skipOk_of_allStuck (by decide))
        (skipOk_append (skipOk_doiLine lblY rfl (by decide) hdoi)
          (skipOk_append (skipOk_of_allStuck (by decide))
            (skipOk_append (skipOk_pmidLine lblY rfl (by decide) hpm)
              (skipOk_append (skipOk_of_allStuck (by decide))
                (skipOk_append (skipOk_star lblY rfl (source_no_star hs))
                  (skipOk_append (skipOk_of_allStuck (by decide))
                    (skipOk_append (skipOk_cmdRef lblY rfl hdoi hpm)
                      (skipOk_append (skipOk_of_allStuck (by decide))
                        (skipOk_append (skipOk_cmdRef lblY rfl hdoi hpm)
                          (skipOk_of_allStuck (by decide)))))))))))

theorem segS_cons : segS = '\n' :: "\n**Source:** ".data := rfl

theorem scan_doi_some (pub : PublicationRecord) (A d : String)
    (ht : goodFieldB pub.title.data = true)
    (ha : pub.authors = some A) (hA : goodFieldB A.data = true)
    (hj : goodFieldB pub.journal.data = true)
    (hy : pub.year = none ∨ ∃ n : Nat, 0 < n ∧ pub.year = some (n : Int))
    (hd : pub.doi = some d) (hg : goodTokB d.data = true) :
    scan1 (matchTokAt lblD) (bodyM pub) = some d.data := by
  have hB : bodyM pub =
      (segHead ++ (pub.title.data ++ (segA ++ (A.data ++
          (segJ ++ (pub.journal.data ++ (segY ++
            ((yearText pub.year).data ++ segG)))))))) ++
        (lblD ++ (' ' :: (d.data ++ '\n' ::
          ((pmidLine pub).data ++ (segS ++ (pub.source.data ++
            (segAct1 ++ ((cmdRef pub).data ++ (segAct2 ++
              ((cmdRef pub).data ++ segAct3)))))))))) := by
    rw [bodyM, doiLine_data_some hd (goodTokB_ne_nil hg),
      jsOrS_some ha (goodFieldB_ne_nil hA) "N/A",
      journal_if_eq (goodFieldB_ne_nil hj)]
    simp only [segNL, List.append_assoc, List.cons_append,
      List.singleton_append, List.nil_append]
  rw [hB]
  refine Eq.trans (scan1_skip (matchTokAt_hm lblD) ?_ _) ?_
  · refine skipOk_append (skipOk_of_allStuck (by decide))
      (skipOk_append (skipOk_star lblD rfl (goodFieldB_no_star ht))
        (skipOk_append (skipOk_of_allStuck (by decide))
          (skipOk_append (skipOk_star lblD rfl (goodFieldB_no_star hA))
            (skipOk_append (skipOk_of_allStuck (by decide))
              (skipOk_append (skipOk_star lblD rfl (goodFieldB_no_star hj))
                (skipOk_append (skipOk_of_allStuck (by decide))
                  (skipOk_append (skipOk_yearText lblD rfl hy)
                    (skipOk_of_allStuck (by decide)))))))))
  · exact scan1_eq_some (matchTokAt_seam lblD d.data _
      (goodTokB_ne_nil hg) (goodTokB_no_ws hg))

theorem scan_doi_none (pub : PublicationRecord) (A : String)
    (ht : goodFieldB pub.title.data = true)
    (ha : pub.authors = some A) (hA : goodFieldB A.data = true)
    (hj : goodFieldB pub.journal.data = true)
    (hy : pub.year = none ∨ ∃ n : Nat, 0 < n ∧ pub.year = some (n : Int))
    (hd : truthy pub.doi = false)
    (hpm : truthy pub.pmid = false ∨
      ∃ p, pub.pmid = some p ∧ goodTokB p.data = true)
    (hs : pub.source.data.all (fun c => !(c = '*')) = true) :
    scan1 (matchTokAt lblD) (bodyM pub) = none := by
  have hT' : SkipOk lblD pub.title.data :=
    skipOk_star lblD rfl (goodFieldB_no_star ht)
  have hA' : SkipOk lblD (jsOrS pub.authors "N/A").data := by
    rw [jsOrS_some ha (goodFieldB_ne_nil hA) "N/A"]
    exact skipOk_star lblD rfl (goodFieldB_no_star hA)
  have hJ' : SkipOk lblD (if pub.journal == "" then "N/A" else pub.journal).data := by
    rw [journal_if_eq (goodFieldB_ne_nil hj)]
    exact skipOk_star lblD rfl (goodFieldB_no_star hj)
  have hY' : SkipOk lblD (yearText pub.year).data := skipOk_yearText lblD rfl hy
  have hD' : SkipOk lblD (doiLine pub).data := by
    rw [doiLine_data_none hd]
    exact skipOk_nil lblD
  have hP' : SkipOk lblD (pmidLine pub).data :=
    skipOk_pmidLine lblD rfl (by decide) hpm
  have hS' : SkipOk lblD pub.source.data :=
    skipOk_star lblD rfl (source_no_star hs)
  have hC' : SkipOk lblD (cmdRef pub).data :=
    skipOk_cmdRef lblD rfl (Or.inl hd) hpm
  refine scan1_none_of_skipOk (matchTokAt_hm lblD) (by decide) ?_
  rw [bodyM]
  repeat' apply skipOk_append
  all_goals first
    | exact hT' | exact hA' | exact hJ' | exact hY' | exact hD' | exact hP'
    | exact hS' | exact hC' | exact skipOk_of_allStuck (by decide)

theorem scan_pmid_some (pub : PublicationRecord) (A p : String)
    (ht : goodFieldB pub.title.data = true)
    (ha : pub.authors = some A) (hA : goodFieldB A.data = true)
    (hj : goodFieldB pub.journal.data = true)
    (hy : pub.year = none ∨ ∃ n : Nat, 0 < n ∧ pub.year = some (n : Int))
    (hdoi : truthy pub.doi = false ∨
      ∃ d, pub.doi = some d ∧ goodTokB d.data = true)
    (hp : pub.pmid = some p) (hg : goodTokB p.data = true) :
    scan1 (matchTokAt lblP) (bodyM pub) = some p.data := by
  have hB : bodyM pub =
      (segHead ++ (pub.title.data ++ (segA ++ (A.data ++
          (segJ ++ (pub.journal.data ++ (segY ++
            ((yearText pub.year).data ++ (segG ++
              ((doiLine pub).data ++ segNL)))))))))) ++
        (lblP ++ (' ' :: (p.data ++ '\n' ::
          ("\n**Source:** ".data ++ (pub.source.data ++
            (segAct1 ++ ((cmdRef pub).data ++ (segAct2 ++
              ((cmdRef pub).data ++ segAct3))))))))) := by
    rw [bodyM, pmidLine_data_some hp (goodTokB_ne_nil hg), segS_cons,
      jsOrS_some ha (goodFieldB_ne_nil hA) "N/A",
      journal_if_eq (goodFieldB_ne_nil hj)]
    simp only [List.append_assoc, List.cons_append,
      List.singleton_append, List.nil_append]
  rw [hB]
  refine Eq.trans (scan1_skip (matchTokAt_hm lblP) ?_ _) ?_
  · refine skipOk_append (skipOk_of_allStuck (by decide))
      (skipOk_append (skipOk_star lblP rfl (goodFieldB_no_star ht))
        (skipOk_append (skipOk_of_allStuck (by decide))
          (skipOk_append (skipOk_star lblP rfl (goodFieldB_no_star hA))
            (skipOk_append (skipOk_of_allStuck (by decide))
              (skipOk_append (skipOk_star lblP rfl (goodFieldB_no_star hj))
                (skipOk_append (skipOk_of_allStuck (by decide))
                  (skipOk_append (skipOk_yearText lblP rfl hy)
                    (skipOk_append (skipOk_of_allStuck (by decide))
                      (skipOk_append
                        (skipOk_doiLine lblP rfl (by decide) hdoi)
                        (skipOk_of_allStuck (by decide)))))))))))
  · exact scan1_eq_some (matchTokAt_seam lblP p.data _
      (goodTokB_ne_nil hg) (goodTokB_no_ws hg))

theorem scan_pmid_none (pub : PublicationRecord) (A : String)
    (ht : goodFieldB pub.title.data = true)
    (ha : pub.authors = some A) (hA : goodFieldB A.data = true)
    (hj : goodFieldB pub.journal.data = true)
    (hy : pub.year = none ∨ ∃ n : Nat, 0 < n ∧ pub.year = some (n : Int))
    (hdoi : truthy pub.doi = false ∨
      ∃ d, pub.doi = some d ∧ goodTokB d.data = true)
    (hp : truthy pub.pmid = false)
    (hs : pub.source.data.all (fun c => !(c = '*')) = true) :
    scan1 (matchTokAt lblP) (bodyM pub) = none := by
  have hT' : SkipOk lblP pub.title.data :=
    skipOk_star lblP rfl (goodFieldB_no_star ht)
  have hA' : SkipOk lblP (jsOrS pub.authors "N/A").data := by
    rw [jsOrS_some ha (goodFieldB_ne_nil hA) "N/A"]
    exact skipOk_star lblP rfl (goodFieldB_no_star hA)
  have hJ' : SkipOk lblP (if pub.journal == "" then "N/A" else pub.journal).data := by
    rw [journal_if_eq (goodFieldB_ne_nil hj)]
    exact skipOk_star lblP rfl (goodFieldB_no_star hj)
  have hY' : SkipOk lblP (yearText pub.year).data := skipOk_yearText lblP rfl hy
  have hD' : SkipOk lblP (doiLine pub).data :=
    skipOk_doiLine lblP rfl (by decide) hdoi
  have hP' : SkipOk lblP (pmidLine pub).data := by
    rw [pmidLine_data_none hp]
    exact skipOk_nil lblP
  have hS' : SkipOk lblP pub.source.data :=
    skipOk_star lblP rfl (source_no_star hs)
  have hC' : SkipOk lblP (cmdRef pub).data :=
    skipOk_cmdRef lblP rfl hdoi (Or.inl hp)
  refine scan1_none_of_skipOk (matchTokAt_hm lblP) (by decide) ?_
  rw [bodyM]
  repeat' apply skipOk_append
  all_goals first
    | exact hT' | exact hA' | exact hJ' | exact hY' | exact hD' | exact hP'
    | exact hS' | exact hC' | exact skipOk_of_allStuck (by decide)

theorem mk_data (s : String) : String.mk s.data = s := rfl

/-- Claim C1 counterexample: for a record whose authors field is absent,
rendering and re-parsing yields authors "N/A", which is neither the
original value nor an empty/absent normalization of it. -/
theorem C1_roundtrip_cex :
    pubC1cex.authors = none ∧
    (parseIssueBody (generateIssueBody pubC1cex)).authors = "N/A" ∧
    ¬ ((parseIssueBody (generateIssueBody pubC1cex)).authors = "") := by
  refine ⟨rfl, ?_, ?_⟩ <;> decide

/-- Claim C1 (amended): the render/parse round trip restores title,
authors, journal, year, doi and pmid exactly for records whose title,
authors and journal are present, nonempty, trimmed, and free of `*` and
line terminators; whose year is absent or a positive integer; whose doi
and pmid are each either non-truthy or nonempty and free of `*` and
whitespace; and whose source contains no `*`. Non-truthy doi/pmid
normalize to absent. -/
theorem C1_roundtrip_amended (pub : PublicationRecord) (A : String)
    (ht : goodFieldB pub.title.data = true)
    (ha : pub.authors = some A) (hA : goodFieldB A.data = true)
    (hj : goodFieldB pub.journal.data = true)
    (hy : pub.year = none ∨ ∃ n : Nat, 0 < n ∧ pub.year = some (n : Int))
    (hdoi : truthy pub.doi = false ∨
      ∃ d, pub.doi = some d ∧ goodTokB d.data = true)
    (hpm : truthy pub.pmid = false ∨
      ∃ p, pub.pmid = some p ∧ goodTokB p.data = true)
    (hs : pub.source.data.all (fun c => !(c = '*')) = true) :
    (parseIssueBody (generateIssueBody pub)).title = pub.title ∧
    (parseIssueBody (generateIssueBody pub)).authors = A ∧
    (parseIssueBody (generateIssueBody pub)).journal = pub.journal ∧
    (parseIssueBody (generateIssueBody pub)).year = pub.year ∧
    (parseIssueBody (generateIssueBody pub)).doi =
      (if truthy pub.doi then pub.doi else none) ∧
    (parseIssueBody (generateIssueBody pub)).pmid =
      (if truthy pub.pmid then pub.pmid else none) := by
  refine ⟨?_, ?_, ?_, ?_, ?_, ?_⟩
  · simp only [parseIssueBody, genBody_data, scan_title pub ht]
    rw [jsTrimL_id (goodFieldB_head ht) (goodFieldB_last ht), mk_data]
  · simp only [parseIssueBody, genBody_data, scan_authors pub A ht ha hA]
    rw [jsTrimL_id (goodFieldB_head hA) (goodFieldB_last hA), mk_data]
  · simp only [parseIssueBody, genBody_data, scan_journal pub A ht ha hA hj]
    rw [jsTrimL_id (goodFieldB_head hj) (goodFieldB_last hj), mk_data]
  · rcases hy with hyn | ⟨n, hn, hyp⟩
    · simp only [parseIssueBody, genBody_data,
        scan_year_none pub A ht ha hA hj hyn hdoi hpm hs, Option.map_none']
      rw [hyn]
    · simp only [parseIssueBody, genBody_data,
        scan_year_pos pub A n ht ha hA hj hyp hn, Option.map_some']
      rw [parseDec_decRepr n, hyp]
  · rcases hdoi with hdf | ⟨d, hd, hg⟩
    · simp only [parseIssueBody, genBody_data,
        scan_doi_none pub A ht ha hA hj hy hdf hpm hs, Option.map_none']
      rw [hdf]
      simp
    · simp only [parseIssueBody, genBody_data,
        scan_doi_some pub A d ht ha hA hj hy hd hg, Option.map_some']
      rw [jsTrimL_id (goodTokB_head hg) (goodTokB_last hg), mk_data]
      rw [if_pos (truthy_some hd (goodTokB_ne_nil hg)), hd]
  · rcases hpm with hpf | ⟨p, hp, hg⟩
    · simp only [parseIssueBody, genBody_data,
        scan_pmid_none pub A ht ha hA hj hy hdoi hpf hs, Option.map_none']
      rw [hpf]
      simp
    · simp only [parseIssueBody, genBody_data,
        scan_pmid_some pub A p ht ha hA hj hy hdoi hp hg, Option.map_some']
      rw [jsTrimL_id (goodTokB_head hg) (goodTokB_last hg), mk_data]
      rw [if_pos (truthy_some hp (goodTokB_ne_nil hg)), hp]

/-- Witness for the amended C1 at a concrete record. -/
theorem C1_roundtrip_amended_witness :
    (parseIssueBody (generateIssueBody pubC1wit)).title = pubC1wit.title ∧
    (parseIssueBody (generateIssueBody pubC1wit)).authors = "Rubin BE, Smith J" ∧
    (parseIssueBody (generateIssueBody pubC1wit)).journal = pubC1wit.journal ∧
    (parseIssueBody (generateIssueBody pubC1wit)).year = pubC1wit.year ∧
    (parseIssueBody (generateIssueBody pubC1wit)).doi =
      (if truthy pubC1wit.doi then pubC1wit.doi else none) ∧
    (parseIssueBody (generateIssueBody pubC1wit)).pmid =
      (if truthy pubC1wit.pmid then pubC1wit.pmid else none) :=
  C1_roundtrip_amended pubC1wit "Rubin BE, Smith J" (by decide) rfl (by decide)
    (by decide) (Or.inr ⟨2024, by decide, rfl⟩)
    (Or.inr ⟨"10.1073/pnas.1", rfl, by decide⟩)
    (Or.inr ⟨"39012345", rfl, by decide⟩) (by decide)
